import Mathlib

/-!
Verification development for the BetterClaw OpenClaw plugin
(event triage and enrichment pipeline).

The TypeScript sources under `src/` are shallowly embedded below:

* JS numbers are modelled as rationals (`ℚ`).  Arithmetic is written with
  explicit `Rat.divInt` forms (`jsAdd`, `jsSub`, ...) so that every
  definition evaluates by kernel reduction; bridge lemmas identify these
  with the standard field operations on `ℚ`.
* `Record<string, number>` / `Record<string, string>` values are modelled
  as association lists in insertion order.
* Impure inputs (wall-clock time, local time zone, the LLM transport, the
  delivery command) are passed as explicit parameters or oracles.
* File writes performed by the proactive engine's `checkAll` are modelled
  as an effect trace, in program order.
-/

namespace BetterClaw

/-! ## JS numbers: reducible arithmetic on `ℚ` with bridge lemmas -/

def jsAdd (a b : ℚ) : ℚ := Rat.divInt (a.num * b.den + b.num * a.den) (a.den * b.den)

def jsNeg (a : ℚ) : ℚ := Rat.divInt (-a.num) a.den

def jsSub (a b : ℚ) : ℚ := jsAdd a (jsNeg b)

def jsMul (a b : ℚ) : ℚ := Rat.divInt (a.num * b.num) (a.den * b.den)

def jsDiv (a b : ℚ) : ℚ := Rat.divInt (a.num * b.den) (a.den * b.num)

/-- `Math.floor` on a rational (denominators are positive, so `Int.fdiv`
is floor division). -/
def jsFloor (a : ℚ) : ℤ := Int.fdiv a.num a.den

def jsAbs (a : ℚ) : ℚ := if a.num < 0 then jsNeg a else a

/-- `Math.round`: half-up rounding, as in JS. -/
def jsRound (a : ℚ) : ℤ := jsFloor (jsAdd a (mkRat 1 2))

def jsMax (a b : ℚ) : ℚ := if a ≤ b then b else a

theorem jsNeg_eq (a : ℚ) : jsNeg a = -a := by
  rw [jsNeg]
  conv_rhs => rw [← Rat.num_divInt_den a]
  rw [Rat.neg_divInt]

theorem jsAdd_eq (a b : ℚ) : jsAdd a b = a + b := by
  have za : ((a.den : ℤ)) ≠ 0 := by exact_mod_cast a.den_nz
  have zb : ((b.den : ℤ)) ≠ 0 := by exact_mod_cast b.den_nz
  rw [jsAdd]
  conv_rhs => rw [← Rat.num_divInt_den a, ← Rat.num_divInt_den b]
  rw [Rat.divInt_add_divInt _ _ za zb]

theorem jsSub_eq (a b : ℚ) : jsSub a b = a - b := by
  rw [jsSub, jsAdd_eq, jsNeg_eq, sub_eq_add_neg]

theorem jsMul_eq (a b : ℚ) : jsMul a b = a * b := by
  have za : ((a.den : ℤ)) ≠ 0 := by exact_mod_cast a.den_nz
  have zb : ((b.den : ℤ)) ≠ 0 := by exact_mod_cast b.den_nz
  rw [jsMul]
  conv_rhs => rw [← Rat.num_divInt_den a, ← Rat.num_divInt_den b]
  rw [Rat.divInt_mul_divInt _ _ za zb]

theorem jsDiv_eq (a b : ℚ) : jsDiv a b = a / b := by
  rcases eq_or_ne b 0 with hb0 | hb0
  · subst hb0
    rw [jsDiv]
    norm_num [Rat.divInt_eq_div]
  · have za : ((a.den : ℤ)) ≠ 0 := by exact_mod_cast a.den_nz
    have zn : (b.num : ℤ) ≠ 0 := Rat.num_ne_zero.mpr hb0
    rw [jsDiv, div_eq_mul_inv]
    conv_rhs => rw [← Rat.num_divInt_den a, Rat.inv_def' b, Rat.divInt_mul_divInt _ _ za zn]

theorem jsFloor_eq (a : ℚ) : jsFloor a = ⌊a⌋ := by
  rw [jsFloor, Rat.floor_def]
  exact Int.fdiv_eq_ediv _ (by positivity)

theorem jsAbs_eq (a : ℚ) : jsAbs a = |a| := by
  rw [jsAbs]
  rcases lt_or_le a.num 0 with h | h
  · have ha : a < 0 := by
      by_contra hc
      exact absurd (Rat.num_nonneg.mpr (not_lt.mp hc)) (not_le.mpr h)
    rw [if_pos h, jsNeg_eq, abs_of_neg ha]
  · rw [if_neg (not_lt.mpr h), abs_of_nonneg (Rat.num_nonneg.mp h)]

theorem jsMax_eq (a b : ℚ) : jsMax a b = max a b := (max_def a b).symm

theorem jsRound_eq (a : ℚ) : jsRound a = ⌊a + 1/2⌋ := by
  rw [jsRound, jsFloor_eq, jsAdd_eq]
  norm_num

/-! ## Records and strings

`Record<string, number>` / `Record<string, string>` values are association
lists in insertion order; JS object-key assignment replaces in place or
appends at the end. -/

def lookupKey {α : Type} (m : List (String × α)) (k : String) : Option α :=
  (m.find? (fun p => p.1 == k)).map (·.2)

/-- JS object-key assignment: replace the (unique) binding of `k` in
place, else append at the end. -/
def setKey {α : Type} : List (String × α) → String → α → List (String × α)
  | [], k, v => [(k, v)]
  | p :: m, k, v => if p.1 == k then (k, v) :: m else p :: setKey m k v

theorem lookupKey_setKey_self {α : Type} (m : List (String × α)) (k : String) (v : α) :
    lookupKey (setKey m k v) k = some v := by
  induction m with
  | nil => simp [setKey, lookupKey, List.find?]
  | cons q m ih =>
    by_cases hq : (q.1 == k) = true
    · simp [setKey, hq, lookupKey, List.find?]
    · have hq' : (q.1 == k) = false := by simpa using hq
      rw [setKey, if_neg (by simp [hq']), lookupKey, List.find?_cons]
      simp only [hq']
      exact ih

/-- `Array.prototype.join(sep)` / `[...].join(sep)`. -/
def joinSep (sep : String) : List String → String
  | [] => ""
  | [x] => x
  | x :: xs => x ++ sep ++ joinSep sep (xs)

/-- `String.prototype.split` with a single-character separator. -/
def splitChar (sep : Char) : List Char → List (List Char)
  | [] => [[]]
  | c :: rest =>
    match splitChar sep rest with
    | [] => [[]]
    | h :: t => if c = sep then [] :: h :: t else (c :: h) :: t

/-- Decimal digits of a natural number (fuel-based so the kernel can
reduce it). -/
def natStrAux : ℕ → ℕ → List Char
  | 0, _ => []
  | fuel+1, n => if n = 0 then [] else natStrAux fuel (n / 10) ++ [Char.ofNat (48 + n % 10)]

def natStr (n : ℕ) : String := if n = 0 then "0" else ⟨natStrAux (n+1) n⟩

def intStr (i : ℤ) : String := if i < 0 then "-" ++ natStr i.natAbs else natStr i.natAbs

/-- Count and strip the factors `p` of `n` (fuel-based). -/
def stripFactorAux : ℕ → ℕ → ℕ → ℕ × ℕ
  | 0, _, n => (0, n)
  | fuel+1, p, n =>
    if 2 ≤ p ∧ 0 < n ∧ n % p = 0 then
      let r := stripFactorAux fuel p (n / p)
      (r.1 + 1, r.2)
    else (0, n)

def stripFactor (p n : ℕ) : ℕ × ℕ := stripFactorAux n p n

def padZeros (k : ℕ) (s : String) : String :=
  ⟨List.replicate (k - s.data.length) '0' ++ s.data⟩

/-- Rendering of a JS number.  Integers print as decimal integers;
non-integers whose denominator divides a power of ten print as decimal
fractions (the common case for device data such as `0.15`); other
rationals fall back to `num/den`.  This stands in for JS float
formatting, which is not representable exactly. -/
def ratStr (q : ℚ) : String :=
  if q.den = 1 then intStr q.num
  else
    let s2 := stripFactor 2 q.den
    let s5 := stripFactor 5 s2.2
    if s5.2 = 1 then
      let k := max s2.1 s5.1
      let scaled := q.num.natAbs * (10 ^ k / q.den)
      let sign := if q.num < 0 then "-" else ""
      sign ++ natStr (scaled / 10 ^ k) ++ "." ++ padZeros k (natStr (scaled % 10 ^ k))
    else
      intStr q.num ++ "/" ++ natStr q.den

/-- Substring machinery: `startsWithL t l` holds when `t` is a prefix of
`l`; `occursIn t l` when `t` occurs contiguously inside `l`. -/
def startsWithL : List Char → List Char → Bool
  | [], _ => true
  | _ :: _, [] => false
  | a :: t, b :: l => a == b && startsWithL t l

def occursIn (t l : List Char) : Bool :=
  startsWithL t l ||
    match l with
    | [] => false
    | _ :: rest => occursIn t rest

/-- `occursIn` on `String`s: `needle` appears contiguously in `hay`. -/
def containsStr (hay needle : String) : Bool := occursIn needle.data hay.data

/-! ## Data model (`src/types.ts`) -/

/-- `DeviceEvent`: `metadata` is optional in TS (`metadata?`), hence an
`Option`; `data` maps string keys to numbers. -/
structure DeviceEvent where
  subscriptionId : String
  source : String
  data : List (String × ℚ)
  metadata : Option (List (String × String))
  firedAt : ℚ
  deriving Repr, DecidableEq

structure BatteryState where
  level : ℚ
  state : String
  isLowPowerMode : Bool
  updatedAt : ℚ
  deriving Repr, DecidableEq

structure LocationState where
  latitude : ℚ
  longitude : ℚ
  horizontalAccuracy : ℚ
  label : Option String
  updatedAt : ℚ
  deriving Repr, DecidableEq

structure HealthState where
  stepsToday : Option ℚ
  distanceMeters : Option ℚ
  heartRateAvg : Option ℚ
  restingHeartRate : Option ℚ
  hrv : Option ℚ
  activeEnergyKcal : Option ℚ
  sleepDurationSeconds : Option ℚ
  updatedAt : ℚ
  deriving Repr, DecidableEq

structure Transition where
  «from» : Option String
  «to» : Option String
  «at» : ℚ
  deriving Repr, DecidableEq

structure ActivityState where
  currentZone : Option String
  zoneEnteredAt : Option ℚ
  lastTransition : Option Transition
  isStationary : Bool
  stationarySince : Option ℚ
  deriving Repr, DecidableEq

structure ContextMeta where
  lastEventAt : ℚ
  eventsToday : ℚ
  lastAgentPushAt : ℚ
  pushesToday : ℚ
  deriving Repr, DecidableEq

structure DeviceState where
  battery : Option BatteryState
  location : Option LocationState
  health : Option HealthState
  deriving Repr, DecidableEq

structure DeviceContext where
  device : DeviceState
  activity : ActivityState
  meta : ContextMeta
  deriving Repr, DecidableEq

inductive FilterAction
  | push
  | drop
  | defer
  | ambiguous
  deriving Repr, DecidableEq

structure FilterDecision where
  action : FilterAction
  reason : String
  deriving Repr, DecidableEq

structure EventLogEntry where
  event : DeviceEvent
  decision : String
  reason : String
  timestamp : ℚ
  deriving Repr, DecidableEq

inductive Trend
  | improving
  | stable
  | declining
  deriving Repr, DecidableEq

structure LocationRoutine where
  zone : String
  typicalLeave : Option String
  typicalArrive : Option String
  deriving Repr, DecidableEq

structure LocationRoutines where
  weekday : List LocationRoutine
  weekend : List LocationRoutine
  deriving Repr, DecidableEq

structure HealthTrends where
  stepsAvg7d : Option ℚ
  stepsAvg30d : Option ℚ
  stepsTrend : Option Trend
  sleepAvg7d : Option ℚ
  sleepTrend : Option Trend
  restingHrAvg7d : Option ℚ
  restingHrTrend : Option Trend
  deriving Repr, DecidableEq

structure BatteryPatterns where
  avgDrainPerHour : Option ℚ
  typicalChargeTime : Option String
  lowBatteryFrequency : Option ℚ
  deriving Repr, DecidableEq

structure EventStats where
  eventsPerDay7d : ℚ
  pushesPerDay7d : ℚ
  dropRate7d : ℚ
  topSources : List String
  deriving Repr, DecidableEq

structure Patterns where
  locationRoutines : LocationRoutines
  healthTrends : HealthTrends
  batteryPatterns : BatteryPatterns
  eventStats : EventStats
  triggerCooldowns : List (String × ℚ)
  computedAt : ℚ
  deriving Repr, DecidableEq

/-! ## Context store (`src/context.ts`, class `ContextManager`) -/

/-- `ContextManager.empty()`. -/
def ContextManager.empty : DeviceContext :=
  { device := { battery := none, location := none, health := none }
    activity :=
      { currentZone := none
        zoneEnteredAt := none
        lastTransition := none
        isStationary := true
        stationarySince := none }
    meta :=
      { lastEventAt := 0
        eventsToday := 0
        lastAgentPushAt := 0
        pushesToday := 0 } }

/-- `ContextManager.updateFromEvent(event)`, as a pure state transform on
the stored context. -/
def ContextManager.updateFromEvent (ctx : DeviceContext) (event : DeviceEvent) : DeviceContext :=
  let now := event.firedAt
  let data := event.data
  -- Reset daily counters at midnight UTC
  let lastDay := jsFloor (jsDiv ctx.meta.lastEventAt 86400)
  let currentDay := jsFloor (jsDiv now 86400)
  let meta0 :=
    if lastDay ≠ currentDay ∧ ctx.meta.lastEventAt > 0 then
      { ctx.meta with eventsToday := 0, pushesToday := 0 }
    else ctx.meta
  let meta1 := { meta0 with lastEventAt := now, eventsToday := jsAdd meta0.eventsToday 1 }
  let ctx := { ctx with meta := meta1 }
  if event.source == "device.battery" then
    { ctx with device := { ctx.device with battery := some (
        { level := (lookupKey data "level").getD ((ctx.device.battery.map (·.level)).getD 0)
          state := (ctx.device.battery.map (·.state)).getD "unknown"
          isLowPowerMode := ((lookupKey data "isLowPowerMode").getD 0) == 1
          updatedAt := (lookupKey data "updatedAt").getD now }) } }
  else if event.source == "geofence.triggered" then
    let type : String := if lookupKey data "type" == some 1 then "enter" else "exit"
    let zoneName : Option String := event.metadata.bind (fun m => lookupKey m "zoneName")
    let prevZone := ctx.activity.currentZone
    let activity :=
      if type == "enter" then
        { currentZone := zoneName
          zoneEnteredAt := some now
          lastTransition := some { «from» := prevZone, «to» := zoneName, «at» := now }
          isStationary := true
          stationarySince := some now }
      else
        { currentZone := none
          zoneEnteredAt := none
          lastTransition := some { «from» := prevZone, «to» := none, «at» := now }
          isStationary := false
          stationarySince := none }
    let ctx := { ctx with activity := activity }
    { ctx with device := { ctx.device with location := some (
        { latitude := (lookupKey data "latitude").getD ((ctx.device.location.map (·.latitude)).getD 0)
          longitude := (lookupKey data "longitude").getD ((ctx.device.location.map (·.longitude)).getD 0)
          horizontalAccuracy := (ctx.device.location.map (·.horizontalAccuracy)).getD 0
          label := ctx.activity.currentZone
          updatedAt := (lookupKey data "timestamp").getD now }) } }
  else if startsWithL "health".data event.source.data then
    { ctx with device := { ctx.device with health := some (
        { stepsToday := (lookupKey data "stepsToday").orElse
            (fun _ => ctx.device.health.bind (·.stepsToday))
          distanceMeters := (lookupKey data "distanceMeters").orElse
            (fun _ => ctx.device.health.bind (·.distanceMeters))
          heartRateAvg := (lookupKey data "heartRateAvg").orElse
            (fun _ => ctx.device.health.bind (·.heartRateAvg))
          restingHeartRate := (lookupKey data "restingHeartRate").orElse
            (fun _ => ctx.device.health.bind (·.restingHeartRate))
          hrv := (lookupKey data "hrv").orElse
            (fun _ => ctx.device.health.bind (·.hrv))
          activeEnergyKcal := (lookupKey data "activeEnergyKcal").orElse
            (fun _ => ctx.device.health.bind (·.activeEnergyKcal))
          sleepDurationSeconds := (lookupKey data "sleepDurationSeconds").orElse
            (fun _ => ctx.device.health.bind (·.sleepDurationSeconds))
          updatedAt := (lookupKey data "updatedAt").getD now }) } }
  else ctx

/-- `ContextManager.recordPush()`. -/
def ContextManager.recordPush (ctx : DeviceContext) (now : ℚ) : DeviceContext :=
  { ctx with meta :=
      { ctx.meta with
        lastAgentPushAt := now
        pushesToday := jsAdd ctx.meta.pushesToday 1 } }

/-- Folding a sequence of events through `updateFromEvent`. -/
def applyEvents (ctx : DeviceContext) (es : List DeviceEvent) : DeviceContext :=
  es.foldl ContextManager.updateFromEvent ctx

/-! ## Rules engine (`src/filter.ts`, class `RulesEngine`)

The process-lifetime map `lastFired` and the configured `pushBudget` are
explicit parameters; `localHour` models `new Date(epoch*1000).getHours()`
(local time zone, an environment input). -/

/-- The `DEDUP_COOLDOWN` table (seconds). -/
def DEDUP_COOLDOWN (subscriptionId : String) : Option ℚ :=
  if subscriptionId == "default.battery-low" then some 3600
  else if subscriptionId == "default.battery-critical" then some 1800
  else if subscriptionId == "default.daily-health" then some 82800
  else if subscriptionId == "default.geofence" then some 300
  else none

def DEFAULT_COOLDOWN : ℚ := 1800

/-- Rules 3-8 of `RulesEngine.evaluate`: everything after the debug and
dedup checks, in source order. -/
def RulesEngine.evalPostDedup (pushBudget : ℚ) (localHour : ℚ → ℤ)
    (event : DeviceEvent) (context : DeviceContext) : FilterDecision :=
  -- Critical battery — always push
  if event.subscriptionId == "default.battery-critical" then
    { action := .push, reason := "critical battery — always push" }
  -- Geofence — always push
  else if event.source == "geofence.triggered" then
    { action := .push, reason := "geofence event — always push" }
  -- Battery low — check if level changed since last push
  else if event.subscriptionId == "default.battery-low" then
    match lookupKey event.data "level", context.device.battery.map (·.level) with
    | some currentLevel, some lastLevel =>
      if jsAbs (jsSub currentLevel lastLevel) < mkRat 2 100 then
        { action := .drop, reason := "battery-low: level unchanged since last push" }
      else
        { action := .push, reason := "battery low — level changed" }
    | _, _ => { action := .push, reason := "battery low — level changed" }
  -- Daily health — check time window
  else if event.subscriptionId == "default.daily-health" then
    let hour := localHour event.firedAt
    if 6 ≤ hour ∧ hour ≤ 10 then
      { action := .push, reason := "daily health summary — within morning window" }
    else
      { action := .defer, reason := "daily health summary — outside morning window" }
  -- Push budget check
  else if context.meta.pushesToday ≥ pushBudget then
    { action := .drop, reason := "push budget exhausted (" ++ ratStr context.meta.pushesToday
        ++ "/" ++ ratStr pushBudget ++ " today)" }
  -- Anything else is ambiguous — forward to LLM judgment
  else
    { action := .ambiguous, reason := "no rule matched — forward to LLM judgment" }

/-- The dedup drop produced by rule 2. -/
def RulesEngine.dedupDrop (event : DeviceEvent) (lastFiredAt cooldown : ℚ) : FilterDecision :=
  { action := .drop
    reason := "dedup: " ++ event.subscriptionId ++ " fired "
      ++ intStr (jsRound (jsSub event.firedAt lastFiredAt)) ++ "s ago (cooldown: "
      ++ ratStr cooldown ++ "s)" }

/-- `RulesEngine.evaluate(event, context)`.  Note the JS truthiness test
`if (lastFiredAt && ...)`: a stored `0` (or a missing entry) skips the
dedup check. -/
def RulesEngine.evaluate (lastFired : List (String × ℚ)) (pushBudget : ℚ) (localHour : ℚ → ℤ)
    (event : DeviceEvent) (context : DeviceContext) : FilterDecision :=
  -- Debug events always pass
  if lookupKey event.data "_debugFired" == some 1 then
    { action := .push, reason := "debug event — always push" }
  else
    -- Dedup check
    let cooldown := (DEDUP_COOLDOWN event.subscriptionId).getD DEFAULT_COOLDOWN
    match lookupKey lastFired event.subscriptionId with
    | some lastFiredAt =>
      if lastFiredAt ≠ 0 ∧ jsSub event.firedAt lastFiredAt < cooldown then
        RulesEngine.dedupDrop event lastFiredAt cooldown
      else
        RulesEngine.evalPostDedup pushBudget localHour event context
    | none => RulesEngine.evalPostDedup pushBudget localHour event context

/-- `RulesEngine.recordFired`. -/
def RulesEngine.recordFired (lastFired : List (String × ℚ)) (subscriptionId : String)
    (firedAt : ℚ) : List (String × ℚ) :=
  setKey lastFired subscriptionId firedAt

/-! ## Pipeline prefix (`src/pipeline.ts`, `processEvent`)

`processEvent` first applies `context.updateFromEvent(event)` and then
runs `rules.evaluate(event, context.get())`; `processDecision` is that
composition (the part of the pipeline that fixes the rule decision). -/

def processDecision (lastFired : List (String × ℚ)) (pushBudget : ℚ) (localHour : ℚ → ℤ)
    (event : DeviceEvent) (ctx : DeviceContext) : FilterDecision :=
  RulesEngine.evaluate lastFired pushBudget localHour event
    (ContextManager.updateFromEvent ctx event)

/-! ## Event log (`src/events.ts`, class `EventLog`) -/

def EventLog.MAX_LINES : ℕ := 10000

/-- `MAX_AGE_MS / 1000` = 30 days in seconds. -/
def EventLog.MAX_AGE_S : ℚ := 2592000

/-- `EventLog.rotate()`: the file content is the entry list; the result
is the returned count together with the new file content (`none` when
the file is left untouched). -/
def EventLog.rotate (entries : List EventLogEntry) (now : ℚ) : ℕ × Option (List EventLogEntry) :=
  if entries.length ≤ EventLog.MAX_LINES then (0, none)
  else
    let cutoff := jsSub now EventLog.MAX_AGE_S
    let filtered := entries.filter (fun e => cutoff ≤ e.timestamp)
    let kept := filtered.drop (filtered.length - EventLog.MAX_LINES)
    (entries.length - kept.length, some kept)

/-- `EventLog.readSince(sinceEpoch)` on a given file content. -/
def EventLog.readSince (entries : List EventLogEntry) (sinceEpoch : ℚ) : List EventLogEntry :=
  entries.filter (fun e => e.timestamp ≥ sinceEpoch)

/-! ## Judgment layer (`src/judgment.ts`)

`buildPrompt` serialises the sanitized context and the event with
`JSON.stringify`; the JSON encoders below mirror the JS object key
order.  The current ISO timestamp (`new Date().toISOString()`) is the
`nowIso` parameter. -/

/-- JSON string escaping as performed by `JSON.stringify`. -/
def escapeJsonChar (c : Char) : List Char :=
  if c = '"' then ['\\', '"']
  else if c = '\\' then ['\\', '\\']
  else if c = '\n' then ['\\', 'n']
  else if c = '\t' then ['\\', 't']
  else if c = '\x0d' then ['\\', 'r']
  else if c = '\x08' then ['\\', 'b']
  else if c = '\x0c' then ['\\', 'f']
  else if c.toNat < 32 then
    ['\\', 'u', '0', '0',
      Char.ofNat (if c.toNat / 16 < 10 then 48 + c.toNat / 16 else 87 + c.toNat / 16),
      Char.ofNat (if c.toNat % 16 < 10 then 48 + c.toNat % 16 else 87 + c.toNat % 16)]
  else [c]

def escapeJson (s : String) : String := ⟨(s.data.map escapeJsonChar).flatten⟩

/-- A JSON string literal. -/
def jsonStrLit (s : String) : String := "\"" ++ escapeJson s ++ "\""

def jsonOpt (f : α → String) : Option α → String
  | none => "null"
  | some x => f x

def jsonBool : Bool → String
  | true => "true"
  | false => "false"

/-- A JSON object from already-rendered `key ↦ value-string` pairs. -/
def jsonObj (fields : List (String × String)) : String :=
  "\x7b" ++ joinSep "," (fields.map (fun p => jsonStrLit p.1 ++ ":" ++ p.2)) ++ "\x7d"

def batteryJson (b : BatteryState) : String :=
  jsonObj [("level", ratStr b.level), ("state", jsonStrLit b.state),
    ("isLowPowerMode", jsonBool b.isLowPowerMode), ("updatedAt", ratStr b.updatedAt)]

/-- The sanitized location object `{label, updatedAt}` built by
`buildPrompt` (raw coordinates stripped). -/
def sanitizedLocationJson (l : LocationState) : String :=
  jsonObj [("label", jsonStrLit (l.label.getD "Unknown")), ("updatedAt", ratStr l.updatedAt)]

def healthJson (h : HealthState) : String :=
  jsonObj [("stepsToday", jsonOpt ratStr h.stepsToday),
    ("distanceMeters", jsonOpt ratStr h.distanceMeters),
    ("heartRateAvg", jsonOpt ratStr h.heartRateAvg),
    ("restingHeartRate", jsonOpt ratStr h.restingHeartRate),
    ("hrv", jsonOpt ratStr h.hrv),
    ("activeEnergyKcal", jsonOpt ratStr h.activeEnergyKcal),
    ("sleepDurationSeconds", jsonOpt ratStr h.sleepDurationSeconds),
    ("updatedAt", ratStr h.updatedAt)]

def transitionJson (t : Transition) : String :=
  jsonObj [("from", jsonOpt jsonStrLit t.«from»), ("to", jsonOpt jsonStrLit t.«to»),
    ("at", ratStr t.«at»)]

def activityJson (a : ActivityState) : String :=
  jsonObj [("currentZone", jsonOpt jsonStrLit a.currentZone),
    ("zoneEnteredAt", jsonOpt ratStr a.zoneEnteredAt),
    ("lastTransition", jsonOpt transitionJson a.lastTransition),
    ("isStationary", jsonBool a.isStationary),
    ("stationarySince", jsonOpt ratStr a.stationarySince)]

def metaJson (m : ContextMeta) : String :=
  jsonObj [("lastEventAt", ratStr m.lastEventAt), ("eventsToday", ratStr m.eventsToday),
    ("lastAgentPushAt", ratStr m.lastAgentPushAt), ("pushesToday", ratStr m.pushesToday)]

/-- `JSON.stringify` of the sanitized context built in `buildPrompt`:
the spread copies key order, with `device.location` replaced by
`{label, updatedAt}`. -/
def sanitizedContextJson (ctx : DeviceContext) : String :=
  jsonObj [("device", jsonObj [("battery", jsonOpt batteryJson ctx.device.battery),
      ("location", jsonOpt sanitizedLocationJson ctx.device.location),
      ("health", jsonOpt healthJson ctx.device.health)]),
    ("activity", activityJson ctx.activity),
    ("meta", metaJson ctx.meta)]

/-- `JSON.stringify(event)`; `metadata` is omitted when `undefined`. -/
def eventJson (e : DeviceEvent) : String :=
  "\x7b" ++ jsonStrLit "subscriptionId" ++ ":" ++ jsonStrLit e.subscriptionId
    ++ "," ++ jsonStrLit "source" ++ ":" ++ jsonStrLit e.source
    ++ "," ++ jsonStrLit "data" ++ ":"
    ++ jsonObj (e.data.map (fun p => (p.1, ratStr p.2)))
    ++ (match e.metadata with
        | none => ""
        | some m => "," ++ jsonStrLit "metadata" ++ ":"
            ++ jsonObj (m.map (fun p => (p.1, jsonStrLit p.2))))
    ++ "," ++ jsonStrLit "firedAt" ++ ":" ++ ratStr e.firedAt ++ "\x7d"

/-- `buildPrompt(event, context, pushesToday, budget)`; `nowIso` models
the impure `new Date().toISOString()`. -/
def buildPrompt (event : DeviceEvent) (context : DeviceContext) (pushesToday : ℚ)
    (budget : ℚ) (nowIso : String) : String :=
  joinSep "\n"
    [ "You are an event triage system for a personal AI assistant.",
      "Given the device context and a new event, decide: should the AI assistant be told about this?",
      "",
      "Respond with ONLY valid JSON: \x7b\"push\": true/false, \"reason\": \"one sentence\"\x7d",
      "",
      "Context: " ++ sanitizedContextJson context,
      "Event: " ++ eventJson event,
      "Pushes today: " ++ ratStr pushesToday ++ " of ~" ++ ratStr budget ++ " budget",
      "Time: " ++ nowIso ]

/-- An element of the `payloads` array returned by the embedded agent:
either a raw string, or an object with an optional string `text` field
and an optional `content` array whose items may carry a string `text`. -/
inductive Payload
  | str (s : String)
  | obj (text : Option String) (content : Option (List (Option String)))
  deriving Repr, DecidableEq

/-- `extractText(payloads)`. -/
def extractText : List Payload → String
  | [] => ""
  | .str s :: _ => s
  | .obj (some t) _ :: _ => t
  | .obj none (some cs) :: rest =>
    match cs.findSome? id with
    | some t => t
    | none => extractText rest
  | .obj none none :: rest => extractText rest

/-- JS whitespace for the `\s` class and `trim()`. -/
def isJsWs (c : Char) : Bool :=
  c = ' ' || c = '\t' || c = '\n' || c = '\x0d' || c = '\x0b' || c = '\x0c'

/-- `text.replace(/^```(?:json)?\s*\/i, "").replace(/\s*```$\/i, "").trim()`:
strip an optional leading code fence (optionally tagged `json`, any
case), an optional trailing fence, then trim. -/
def cleanFences (text : String) : String :=
  let l0 := text.data
  let l1 :=
    if startsWithL "```".data l0 then
      let r := l0.drop 3
      let r :=
        if startsWithL "json".data (r.map Char.toLower) then r.drop 4 else r
      r.dropWhile isJsWs
    else l0
  let l2 :=
    let rev := l1.reverse.dropWhile isJsWs
    if startsWithL "```".data rev then ((rev.drop 3).reverse ++ []) else l1
  ⟨(l2.dropWhile isJsWs).reverse.dropWhile isJsWs |>.reverse⟩

structure JudgmentResult where
  push : Bool
  reason : String
  deriving Repr, DecidableEq

/-- The LLM transport outcome: the `runEmbeddedPiAgent` call either
throws (configuration, transport or timeout failure) or returns a
payload list. -/
inductive LlmResponse
  | threw
  | payloads (ps : List Payload)
  deriving Repr, DecidableEq

/-- Abstraction of `JSON.parse` applied to the cleaned LLM reply, as
consumed by the code: `pushVal = some true` exactly when
`parsed.push === true`; `reasonVal = some r` exactly when
`typeof parsed.reason === "string"` with value `r`. -/
structure ParsedTriage where
  pushVal : Option Bool
  reasonVal : Option String
  deriving Repr, DecidableEq

/-- `JudgmentLayer.evaluate(event, context)`.  `llmModel` and `budget`
come from the plugin config; `parse` models `JSON.parse` (`none` =
parse failure); `resp` is the transport outcome. -/
def JudgmentLayer.evaluate (llmModel : String) (budget : ℚ)
    (parse : String → Option ParsedTriage) (resp : LlmResponse) (nowIso : String)
    (event : DeviceEvent) (context : DeviceContext) : JudgmentResult :=
  let _prompt := buildPrompt event context context.meta.pushesToday budget nowIso
  let parts := splitChar '/' llmModel.data
  let provider : String := ⟨parts.headD []⟩
  let model : String := joinSep "/" (parts.tail.map (fun l => ⟨l⟩))
  if provider = "" ∨ model = "" then
    { push := true, reason := "llm model not configured — fail open" }
  else
    match resp with
    | .threw => { push := true, reason := "llm call failed — fail open" }
    | .payloads ps =>
      let text := extractText ps
      if text = "" then
        { push := true, reason := "llm returned empty — fail open" }
      else
        match parse (cleanFences text) with
        | none => { push := true, reason := "llm returned invalid json — fail open" }
        | some parsed =>
          { push := parsed.pushVal == some true
            reason := parsed.reasonVal.getD "no reason given" }

/-! ## Pattern engine (`src/patterns.ts`)

`new Date(epoch*1000)` local-time readings (`getDay`, `getHours`,
`getMinutes`) are modelled by a `clock` parameter; `Date.now()/1000` is
the `now` parameter. -/

/-- Local wall-clock reading of an epoch: day of week (0 = Sunday),
hour, minute. -/
structure LocalTime where
  day : ℕ
  hour : ℕ
  minute : ℕ
  deriving Repr, DecidableEq

/-- `emptyPatterns()`. -/
def emptyPatterns : Patterns :=
  { locationRoutines := { weekday := [], weekend := [] }
    healthTrends :=
      { stepsAvg7d := none, stepsAvg30d := none, stepsTrend := none,
        sleepAvg7d := none, sleepTrend := none,
        restingHrAvg7d := none, restingHrTrend := none }
    batteryPatterns :=
      { avgDrainPerHour := none, typicalChargeTime := none, lowBatteryFrequency := none }
    eventStats :=
      { eventsPerDay7d := 0, pushesPerDay7d := 0, dropRate7d := 0, topSources := [] }
    triggerCooldowns := []
    computedAt := 0 }

def average (values : List ℚ) : Option ℚ :=
  if values.length = 0 then none
  else some (jsDiv (values.foldl jsAdd 0) values.length)

def median (values : List ℚ) : ℚ :=
  let sorted := values.mergeSort (fun a b => decide (a ≤ b))
  let mid := sorted.length / 2
  if sorted.length % 2 = 1 then sorted.getD mid 0
  else jsDiv (jsAdd (sorted.getD (mid - 1) 0) (sorted.getD mid 0)) 2

def formatHour (h : ℚ) : String :=
  let hours := jsFloor h
  let mins := jsRound (jsMul (jsSub h hours) 60)
  padZeros 2 (natStr hours.natAbs) ++ ":" ++ padZeros 2 (natStr mins.natAbs)

def computeTrend (recent baseline : Option ℚ) : Option Trend :=
  match recent, baseline with
  | some r, some b =>
    let ratio := jsDiv r b
    if ratio > mkRat 11 10 then some .improving
    else if ratio < mkRat 9 10 then some .declining
    else some .stable
  | _, _ => none

def computeInverseTrend (recent baseline : Option ℚ) : Option Trend :=
  match recent, baseline with
  | some r, some b =>
    let ratio := jsDiv r b
    if ratio < mkRat 9 10 then some .improving
    else if ratio > mkRat 11 10 then some .declining
    else some .stable
  | _, _ => none

/-- Zone accumulator used by `computeLocationRoutines`: insertion-ordered
map zone ↦ (arrive hours, leave hours). -/
def pushZoneHour (zones : List (String × (List ℚ × List ℚ))) (zone : String)
    (isEnter : Bool) (hour : ℚ) : List (String × (List ℚ × List ℚ)) :=
  match zones with
  | [] => [(zone, if isEnter then ([hour], []) else ([], [hour]))]
  | p :: rest =>
    if p.1 == zone then
      (p.1, if isEnter then (p.2.1 ++ [hour], p.2.2) else (p.2.1, p.2.2 ++ [hour])) :: rest
    else p :: pushZoneHour rest zone isEnter hour

def formatRoutines (zones : List (String × (List ℚ × List ℚ))) : List LocationRoutine :=
  zones.map (fun p =>
    { zone := p.1
      typicalArrive := if p.2.1.length > 0 then some (formatHour (median p.2.1)) else none
      typicalLeave := if p.2.2.length > 0 then some (formatHour (median p.2.2)) else none })

def computeLocationRoutines (clock : ℚ → LocalTime) (entries : List EventLogEntry) :
    LocationRoutines :=
  let geofenceEvents := entries.filter (fun e => e.event.source == "geofence.triggered")
  let acc := geofenceEvents.foldl
    (fun (z : List (String × (List ℚ × List ℚ)) × List (String × (List ℚ × List ℚ))) entry =>
      let date := clock entry.event.firedAt
      let isWeekend := date.day == 0 || date.day == 6
      let hour := jsAdd date.hour (jsDiv date.minute 60)
      let isEnter := lookupKey entry.event.data "type" == some 1
      let zone := (entry.event.metadata.bind (fun m => lookupKey m "zoneName")).getD "Unknown"
      if isWeekend then (z.1, pushZoneHour z.2 zone isEnter hour)
      else (pushZoneHour z.1 zone isEnter hour, z.2))
    ([], [])
  { weekday := formatRoutines acc.1, weekend := formatRoutines acc.2 }

def computeHealthTrends (now : ℚ) (entries : List EventLogEntry) : HealthTrends :=
  let healthEvents := entries.filter (fun e => startsWithL "health".data e.event.source.data)
  let last7d := healthEvents.filter (fun e => e.event.firedAt ≥ jsSub now 604800)
  let last30d := healthEvents
  let stepsValues7d := last7d.filterMap (fun e => lookupKey e.event.data "stepsToday")
  let stepsValues30d := last30d.filterMap (fun e => lookupKey e.event.data "stepsToday")
  let sleepValues7d := last7d.filterMap (fun e => lookupKey e.event.data "sleepDurationSeconds")
  let sleepValues30d := last30d.filterMap (fun e => lookupKey e.event.data "sleepDurationSeconds")
  let rhrValues7d := last7d.filterMap (fun e => lookupKey e.event.data "restingHeartRate")
  let rhrValues30d := last30d.filterMap (fun e => lookupKey e.event.data "restingHeartRate")
  let stepsAvg7d := average stepsValues7d
  let stepsAvg30d := average stepsValues30d
  let sleepAvg7d := average sleepValues7d
  let sleepAvg30d := average sleepValues30d
  let rhrAvg7d := average rhrValues7d
  let rhrAvg30d := average rhrValues30d
  { stepsAvg7d := stepsAvg7d
    stepsAvg30d := stepsAvg30d
    stepsTrend := computeTrend stepsAvg7d stepsAvg30d
    sleepAvg7d := sleepAvg7d
    sleepTrend := computeTrend sleepAvg7d sleepAvg30d
    restingHrAvg7d := rhrAvg7d
    restingHrTrend := computeInverseTrend rhrAvg7d rhrAvg30d }

def computeBatteryPatterns (entries : List EventLogEntry) : BatteryPatterns :=
  let lowBatteryEvents := entries.filter (fun e =>
    e.event.subscriptionId == "default.battery-low" ||
      e.event.subscriptionId == "default.battery-critical")
  let daySpan : ℚ :=
    match entries.head?, entries.getLast? with
    | some first, some last =>
      jsMax 1 (jsDiv (jsSub last.timestamp first.timestamp) 86400)
    | _, _ => 1
  { avgDrainPerHour := none
    typicalChargeTime := none
    lowBatteryFrequency := some (jsDiv lowBatteryEvents.length daySpan) }

/-- Count per source in first-appearance order (JS `Map` iteration
order), then stable-sort by descending count (JS `sort` is stable). -/
def sourceCountsOf (entries : List EventLogEntry) : List (String × ℕ) :=
  entries.foldl
    (fun acc e =>
      match lookupKey acc e.event.source with
      | some n => setKey acc e.event.source (n + 1)
      | none => acc ++ [(e.event.source, 1)])
    []

def computeEventStats (now : ℚ) (entries : List EventLogEntry) : EventStats :=
  let last7d := entries.filter (fun e => e.timestamp ≥ jsSub now 604800)
  let days : ℚ := 7
  let pushes := last7d.filter (fun e => e.decision == "push")
  let drops := last7d.filter (fun e => e.decision == "drop")
  let topSources := ((sourceCountsOf last7d).mergeSort
      (fun a b => decide (b.2 ≤ a.2))).take 5 |>.map (·.1)
  { eventsPerDay7d := jsDiv last7d.length days
    pushesPerDay7d := jsDiv pushes.length days
    dropRate7d := if last7d.length > 0 then jsDiv drops.length last7d.length else 0
    topSources := topSources }

/-- `PatternEngine.compute()`: `log` is the event-log content, `existing`
the currently persisted patterns document (`none` when `readPatterns`
failed), `now` the wall clock, `windowDays` the configured window. -/
def PatternEngine.compute (log : List EventLogEntry) (existing : Option Patterns)
    (now : ℚ) (windowDays : ℚ) (clock : ℚ → LocalTime) : Patterns :=
  let windowStart := jsSub now (jsMul windowDays 86400)
  let entries := EventLog.readSince log windowStart
  let existingP := existing.getD emptyPatterns
  { locationRoutines := computeLocationRoutines clock entries
    healthTrends := computeHealthTrends now entries
    batteryPatterns := computeBatteryPatterns entries
    eventStats := computeEventStats now entries
    triggerCooldowns := existingP.triggerCooldowns
    computedAt := now }

/-! ## Proactive engine (`src/triggers.ts`, class `ProactiveEngine`)

`checkAll` is modelled as a fold over the trigger table producing the
effect trace in program order.  The five trigger predicates themselves
are impure (they read the local wall clock); `checkAll` is therefore
parametrised by the table of `(id, check)` pairs, which covers the
declared table and its cooldown gating exactly. -/

inductive Priority
  | low
  | normal
  | high
  deriving Repr, DecidableEq

structure TriggerResult where
  id : String
  message : String
  priority : Priority
  deriving Repr, DecidableEq

/-- The `TRIGGER_COOLDOWNS` table (seconds). -/
def TRIGGER_COOLDOWNS (id : String) : Option ℚ :=
  if id == "low-battery-away" then some 14400
  else if id == "unusual-inactivity" then some 21600
  else if id == "sleep-deficit" then some 86400
  else if id == "routine-deviation" then some 14400
  else if id == "health-weekly-digest" then some 604800
  else none

/-- Outcome of one `runCommandWithTimeout` delivery attempt: the command
either exits with a code (and stderr) or the await throws (timeout or
spawn failure). -/
inductive DeliveryOutcome
  | exited (code : ℤ) (stderr : String)
  | threw (msg : String)
  deriving Repr, DecidableEq

/-- Observable effects of `checkAll`, in program order.  `deliver` is
tagged with the trigger id of the loop iteration that issued it. -/
inductive Effect
  | writePatterns (p : Patterns)
  | deliver (triggerId : String) (message : String)
  | logInfo (s : String)
  | logError (s : String)
  deriving Repr, DecidableEq

/-- The effects of the `try/catch` around one delivery: the command is
invoked, and a non-zero exit or a thrown error is logged (it does not
abort the loop). -/
def deliveryEffects (id message : String) (outcome : DeliveryOutcome) : List Effect :=
  match outcome with
  | .exited code stderr =>
    if code ≠ 0 then
      [.deliver id message,
        .logError ("betterclaw: trigger push failed: agent command exited "
          ++ intStr code ++ ": " ++ stderr)]
    else [.deliver id message]
  | .threw msg => [.deliver id message, .logError ("betterclaw: trigger push failed: " ++ msg)]

/-- One iteration of the `checkAll` loop body: returns the effects of the
iteration and the patterns document going into the next iteration. -/
def ProactiveEngine.step (ctx : DeviceContext) (now : ℚ)
    (outcome : String → DeliveryOutcome) (patterns : Patterns)
    (trigger : String × (DeviceContext → Patterns → Option TriggerResult)) :
    List Effect × Patterns :=
  let lastFired := (lookupKey patterns.triggerCooldowns trigger.1).getD 0
  let cooldown := (TRIGGER_COOLDOWNS trigger.1).getD 3600
  if jsSub now lastFired < cooldown then ([], patterns)
  else
    match trigger.2 ctx patterns with
    | none => ([], patterns)
    | some result =>
      -- Write cooldown BEFORE push to prevent runaway retries on failure
      let patterns' := { patterns with
        triggerCooldowns := setKey patterns.triggerCooldowns trigger.1 now }
      let message := "[BetterClaw proactive insight — combined signal analysis]\n\n"
        ++ result.message
      ([.logInfo ("betterclaw: proactive trigger fired: " ++ trigger.1),
        .writePatterns patterns'] ++ deliveryEffects trigger.1 message (outcome trigger.1),
        patterns')

/-- `ProactiveEngine.checkAll()` over a trigger table: the concatenated
effect trace and the final in-memory patterns document. -/
def ProactiveEngine.checkAll
    (table : List (String × (DeviceContext → Patterns → Option TriggerResult)))
    (ctx : DeviceContext) (patterns : Patterns) (now : ℚ)
    (outcome : String → DeliveryOutcome) : List Effect × Patterns :=
  match table with
  | [] => ([], patterns)
  | t :: rest =>
    let s := ProactiveEngine.step ctx now outcome patterns t
    let r := ProactiveEngine.checkAll rest ctx s.2 now outcome
    (s.1 ++ r.1, r.2)

/-! ## Theorems -/

theorem jsFloor_jsDiv_eq (a b : ℚ) : jsFloor (jsDiv a b) = ⌊a / b⌋ := by
  rw [jsFloor_eq, jsDiv_eq]

/-- The `.meta` component of `updateFromEvent` is the daily-counter
update, whatever the event source. -/
theorem updateFromEvent_meta (ctx : DeviceContext) (e : DeviceEvent) :
    (ContextManager.updateFromEvent ctx e).meta =
      { lastEventAt := e.firedAt
        eventsToday :=
          if jsFloor (jsDiv ctx.meta.lastEventAt 86400) ≠ jsFloor (jsDiv e.firedAt 86400)
              ∧ ctx.meta.lastEventAt > 0
          then jsAdd 0 1 else jsAdd ctx.meta.eventsToday 1
        lastAgentPushAt := ctx.meta.lastAgentPushAt
        pushesToday :=
          if jsFloor (jsDiv ctx.meta.lastEventAt 86400) ≠ jsFloor (jsDiv e.firedAt 86400)
              ∧ ctx.meta.lastEventAt > 0
          then 0 else ctx.meta.pushesToday } := by
  rw [ContextManager.updateFromEvent]
  by_cases hroll : jsFloor (jsDiv ctx.meta.lastEventAt 86400) ≠ jsFloor (jsDiv e.firedAt 86400)
      ∧ ctx.meta.lastEventAt > 0
  · simp only [if_pos hroll]
    repeat' split
    all_goals rfl
  · simp only [if_neg hroll]
    repeat' split
    all_goals rfl

/-- C1.  For every event applied via `updateFromEvent`: `eventsToday`
increments by 1 unless `lastEventAt > 0` and the UTC day
(`floor(t/86400)`) of `firedAt` differs from that of `lastEventAt`, in
which case `eventsToday` becomes 1 and `pushesToday` becomes 0; in all
cases `lastEventAt` is then set to `firedAt`. -/
theorem C1_daily_counter_rollover (ctx : DeviceContext) (e : DeviceEvent) :
    (ContextManager.updateFromEvent ctx e).meta =
      { lastEventAt := e.firedAt
        eventsToday :=
          if ctx.meta.lastEventAt > 0 ∧ ⌊e.firedAt / 86400⌋ ≠ ⌊ctx.meta.lastEventAt / 86400⌋
          then 1 else ctx.meta.eventsToday + 1
        lastAgentPushAt := ctx.meta.lastAgentPushAt
        pushesToday :=
          if ctx.meta.lastEventAt > 0 ∧ ⌊e.firedAt / 86400⌋ ≠ ⌊ctx.meta.lastEventAt / 86400⌋
          then 0 else ctx.meta.pushesToday } := by
  have hiff : (jsFloor (jsDiv ctx.meta.lastEventAt 86400) ≠ jsFloor (jsDiv e.firedAt 86400)
        ∧ ctx.meta.lastEventAt > 0)
      ↔ (ctx.meta.lastEventAt > 0
          ∧ ⌊e.firedAt / 86400⌋ ≠ ⌊ctx.meta.lastEventAt / 86400⌋) := by
    rw [jsFloor_jsDiv_eq, jsFloor_jsDiv_eq]
    constructor
    · rintro ⟨h1, h2⟩
      exact ⟨h2, fun h => h1 h.symm⟩
    · rintro ⟨h1, h2⟩
      exact ⟨fun h => h2 h.symm, h1⟩
  rw [updateFromEvent_meta]
  simp only [hiff, jsAdd_eq, zero_add]

/-- C9.  `rotate()` is the identity (returning 0) at or below 10,000
entries; above that it keeps only entries younger than 30 days, truncated
to the last 10,000, rewrites the file, and returns the positive number of
entries dropped. -/
theorem C9_rotate (entries : List EventLogEntry) (now : ℚ) :
    (entries.length ≤ 10000 → EventLog.rotate entries now = (0, none)) ∧
    (10000 < entries.length →
      ∃ kept : List EventLogEntry,
        EventLog.rotate entries now = (entries.length - kept.length, some kept) ∧
        0 < entries.length - kept.length ∧
        kept.length ≤ 10000 ∧
        (∀ x ∈ kept, now - 2592000 ≤ x.timestamp) ∧
        kept.Sublist entries) := by
  simp only [EventLog.rotate, EventLog.MAX_LINES, EventLog.MAX_AGE_S]
  constructor
  · intro h
    rw [if_pos h]
  · intro h
    rw [if_neg (by omega)]
    have hf : (entries.filter
        (fun e => decide (jsSub now 2592000 ≤ e.timestamp))).length
          ≤ entries.length := List.length_filter_le _ _
    refine ⟨_, rfl, ?_, ?_, ?_, ?_⟩
    · rw [List.length_drop]
      omega
    · rw [List.length_drop]
      omega
    · intro x hx
      have hx2 := List.mem_filter.mp (List.mem_of_mem_drop hx)
      have := of_decide_eq_true hx2.2
      rwa [jsSub_eq] at this
    · exact (List.drop_sublist _ _).trans (List.filter_sublist _)

/-- A concrete log entry for the `rotate` witness. -/
def sampleEntry : EventLogEntry :=
  { event := { subscriptionId := "s", source := "t", data := [], metadata := none, firedAt := 5 }
    decision := "push"
    reason := "r"
    timestamp := 5 }

/-- C9 witness: both branches exercised on concrete logs. -/
theorem C9_rotate_witness :
    EventLog.rotate [] 0 = (0, none) ∧
    (∃ kept : List EventLogEntry,
      EventLog.rotate (List.replicate 10001 sampleEntry) 5
        = ((List.replicate 10001 sampleEntry).length - kept.length, some kept) ∧
      0 < (List.replicate 10001 sampleEntry).length - kept.length ∧
      kept.length ≤ 10000 ∧
      (∀ x ∈ kept, (5:ℚ) - 2592000 ≤ x.timestamp) ∧
      kept.Sublist (List.replicate 10001 sampleEntry)) := by
  constructor
  · exact (C9_rotate [] 0).1 (by simp)
  · exact (C9_rotate (List.replicate 10001 sampleEntry) 5).2
      (by rw [List.length_replicate]; omega)

/-- C10.  `PatternEngine.compute` recomputes the four analytic sections
and `computedAt`, while `triggerCooldowns` is copied from the prior
persisted document (empty when none exists); the analytic sections do
not depend on the prior document at all. -/
theorem C10_compute_preserves_cooldowns (log : List EventLogEntry)
    (existing : Option Patterns) (now windowDays : ℚ) (clock : ℚ → LocalTime) :
    (PatternEngine.compute log existing now windowDays clock).triggerCooldowns
        = (match existing with
           | some p => p.triggerCooldowns
           | none => []) ∧
    (PatternEngine.compute log existing now windowDays clock).computedAt = now ∧
    ∀ other : Option Patterns,
      (PatternEngine.compute log existing now windowDays clock).locationRoutines
          = (PatternEngine.compute log other now windowDays clock).locationRoutines ∧
      (PatternEngine.compute log existing now windowDays clock).healthTrends
          = (PatternEngine.compute log other now windowDays clock).healthTrends ∧
      (PatternEngine.compute log existing now windowDays clock).batteryPatterns
          = (PatternEngine.compute log other now windowDays clock).batteryPatterns ∧
      (PatternEngine.compute log existing now windowDays clock).eventStats
          = (PatternEngine.compute log other now windowDays clock).eventStats := by
  refine ⟨?_, rfl, fun other => ⟨rfl, rfl, rfl, rfl⟩⟩
  cases existing <;> rfl

/-! ### C4: field-level merge -/

/-- The battery dispatch of `updateFromEvent`, in closed form. -/
theorem updateFromEvent_battery (ctx : DeviceContext) (e : DeviceEvent)
    (h : e.source = "device.battery") :
    (ContextManager.updateFromEvent ctx e).device.battery = some
      { level := (lookupKey e.data "level").getD
          ((ctx.device.battery.map (·.level)).getD 0)
        state := (ctx.device.battery.map (·.state)).getD "unknown"
        isLowPowerMode := ((lookupKey e.data "isLowPowerMode").getD 0) == 1
        updatedAt := (lookupKey e.data "updatedAt").getD e.firedAt } := by
  simp [ContextManager.updateFromEvent, h]

/-- A context whose battery has low-power mode on. -/
def c4ctx : DeviceContext :=
  { ContextManager.empty with device :=
      { battery := some ⟨mkRat 5 10, "charging", true, 100⟩
        location := none
        health := none } }

/-- A battery event that does not carry `isLowPowerMode`. -/
def c4ev : DeviceEvent :=
  { subscriptionId := "default.battery-low", source := "device.battery",
    data := [("level", mkRat 3 10)], metadata := none, firedAt := 200 }

/-- C4 counterexample.  The claim says an absent `isLowPowerMode` leaves
the previously stored value unchanged; here the prior value is `true`,
the event omits the field, and the updated context stores `false`. -/
theorem C4_counterexample :
    lookupKey c4ev.data "isLowPowerMode" = none ∧
    c4ctx.device.battery.map (·.isLowPowerMode) = some true ∧
    (ContextManager.updateFromEvent c4ctx c4ev).device.battery.map (·.isLowPowerMode)
      = some false := by
  decide

/-- C4 amended.  Field-level merge holds for `battery.level`, the
geofence coordinates, and the seven health metrics (absent fields
preserve prior values, present fields overwrite); however an absent
`isLowPowerMode` resets to `false` (it is `true` iff
`data.isLowPowerMode == 1`), and the stored `updatedAt` falls back to
`firedAt` — not to the prior value — when `data.updatedAt` /
`data.timestamp` is absent. -/
theorem C4_field_level_merge (ctx : DeviceContext) (e : DeviceEvent) :
    (e.source = "device.battery" →
      (ContextManager.updateFromEvent ctx e).device.battery = some
        { level := (lookupKey e.data "level").getD
            ((ctx.device.battery.map (·.level)).getD 0)
          state := (ctx.device.battery.map (·.state)).getD "unknown"
          isLowPowerMode := ((lookupKey e.data "isLowPowerMode").getD 0) == 1
          updatedAt := (lookupKey e.data "updatedAt").getD e.firedAt }) ∧
    (e.source = "geofence.triggered" →
      ∃ loc : LocationState,
        (ContextManager.updateFromEvent ctx e).device.location = some loc ∧
        loc.latitude = (lookupKey e.data "latitude").getD
          ((ctx.device.location.map (·.latitude)).getD 0) ∧
        loc.longitude = (lookupKey e.data "longitude").getD
          ((ctx.device.location.map (·.longitude)).getD 0) ∧
        loc.horizontalAccuracy = (ctx.device.location.map (·.horizontalAccuracy)).getD 0 ∧
        loc.updatedAt = (lookupKey e.data "timestamp").getD e.firedAt) ∧
    (e.source ≠ "device.battery" → e.source ≠ "geofence.triggered" →
      startsWithL "health".data e.source.data = true →
      (ContextManager.updateFromEvent ctx e).device.health = some
        { stepsToday := (lookupKey e.data "stepsToday").orElse
            (fun _ => ctx.device.health.bind (·.stepsToday))
          distanceMeters := (lookupKey e.data "distanceMeters").orElse
            (fun _ => ctx.device.health.bind (·.distanceMeters))
          heartRateAvg := (lookupKey e.data "heartRateAvg").orElse
            (fun _ => ctx.device.health.bind (·.heartRateAvg))
          restingHeartRate := (lookupKey e.data "restingHeartRate").orElse
            (fun _ => ctx.device.health.bind (·.restingHeartRate))
          hrv := (lookupKey e.data "hrv").orElse
            (fun _ => ctx.device.health.bind (·.hrv))
          activeEnergyKcal := (lookupKey e.data "activeEnergyKcal").orElse
            (fun _ => ctx.device.health.bind (·.activeEnergyKcal))
          sleepDurationSeconds := (lookupKey e.data "sleepDurationSeconds").orElse
            (fun _ => ctx.device.health.bind (·.sleepDurationSeconds))
          updatedAt := (lookupKey e.data "updatedAt").getD e.firedAt }) := by
  refine ⟨?_, ?_, ?_⟩
  · intro h
    exact updateFromEvent_battery ctx e h
  · intro h
    have hb : (("geofence.triggered" == "device.battery") : Bool) = false := by decide
    have hg : (("geofence.triggered" == "geofence.triggered") : Bool) = true := by decide
    rw [ContextManager.updateFromEvent]
    rw [h, hb, hg]
    simp only [Bool.false_eq_true, if_false, if_true]
    split
    · exact ⟨_, rfl, rfl, rfl, rfl, rfl⟩
    · exact ⟨_, rfl, rfl, rfl, rfl, rfl⟩
  · intro h1 h2 h3
    simp [ContextManager.updateFromEvent, h1, h2, h3]

/-- C4 witness: the battery case of the amended merge at a concrete
input. -/
theorem C4_field_level_merge_witness :
    (ContextManager.updateFromEvent c4ctx c4ev).device.battery = some
      { level := (lookupKey c4ev.data "level").getD
          ((c4ctx.device.battery.map (·.level)).getD 0)
        state := (c4ctx.device.battery.map (·.state)).getD "unknown"
        isLowPowerMode := ((lookupKey c4ev.data "isLowPowerMode").getD 0) == 1
        updatedAt := (lookupKey c4ev.data "updatedAt").getD c4ev.firedAt } :=
  (C4_field_level_merge c4ctx c4ev).1 rfl

/-! ### C5: geofence zone state -/

/-- The most recent geofence event of a sequence. -/
def lastGeofence (es : List DeviceEvent) : Option DeviceEvent :=
  es.reverse.find? (fun e => e.source == "geofence.triggered")

/-- `event.metadata?.zoneName ?? null`. -/
def zoneNameOf (e : DeviceEvent) : Option String :=
  e.metadata.bind (fun m => lookupKey m "zoneName")

theorem updateFromEvent_activity_of_not_geofence (ctx : DeviceContext) (e : DeviceEvent)
    (h : e.source ≠ "geofence.triggered") :
    (ContextManager.updateFromEvent ctx e).activity = ctx.activity := by
  rw [ContextManager.updateFromEvent]
  split
  · rfl
  · split
    · next hg => exact absurd (by simpa using hg) h
    · split
      · rfl
      · rfl

theorem updateFromEvent_activity_geofence (ctx : DeviceContext) (e : DeviceEvent)
    (h : e.source = "geofence.triggered") :
    (ContextManager.updateFromEvent ctx e).activity =
      (if lookupKey e.data "type" = some 1 then
        { currentZone := zoneNameOf e
          zoneEnteredAt := some e.firedAt
          lastTransition := some
            { «from» := ctx.activity.currentZone, «to» := zoneNameOf e, «at» := e.firedAt }
          isStationary := true
          stationarySince := some e.firedAt }
      else
        { currentZone := none
          zoneEnteredAt := none
          lastTransition := some
            { «from» := ctx.activity.currentZone, «to» := none, «at» := e.firedAt }
          isStationary := false
          stationarySince := none }) := by
  have hb : ¬ ("geofence.triggered" = "device.battery") := by decide
  rw [ContextManager.updateFromEvent]
  simp only [h, beq_iff_eq, zoneNameOf]
  simp only [if_true]
  by_cases hty : lookupKey e.data "type" = some 1
  · simp only [hty]
    rfl
  · simp only [if_neg hty]
    rfl

/-- A geofence enter event with no `metadata.zoneName`. -/
def c5ev : DeviceEvent :=
  { subscriptionId := "default.geofence", source := "geofence.triggered",
    data := [("type", 1)], metadata := none, firedAt := 100 }

/-- C5 counterexample.  The most recent geofence event is an enter
(`data.type == 1`), yet `currentZone` is null, because the event carries
no `metadata.zoneName`. -/
theorem C5_counterexample :
    lastGeofence [c5ev] = some c5ev ∧
    lookupKey c5ev.data "type" = some 1 ∧
    (applyEvents ContextManager.empty [c5ev]).activity.currentZone = none := by
  decide

/-- C5 amended.  Starting from the empty context, `currentZone` is
non-null iff the most recent `geofence.triggered` event was an enter
(`data.type == 1`) carrying a `metadata.zoneName`; after an enter,
`currentZone` is that zone name, `isStationary` is true and
`stationarySince = firedAt`; after an exit, `currentZone` is null,
`isStationary` false, `stationarySince` null. -/
theorem C5_zone_iff_last_enter (es : List DeviceEvent) :
    ((applyEvents ContextManager.empty es).activity.currentZone ≠ none ↔
      ∃ e, lastGeofence es = some e ∧ lookupKey e.data "type" = some 1 ∧
        zoneNameOf e ≠ none) ∧
    (∀ e, lastGeofence es = some e → lookupKey e.data "type" = some 1 →
      (applyEvents ContextManager.empty es).activity.currentZone = zoneNameOf e ∧
      (applyEvents ContextManager.empty es).activity.isStationary = true ∧
      (applyEvents ContextManager.empty es).activity.stationarySince = some e.firedAt) ∧
    (∀ e, lastGeofence es = some e → ¬ lookupKey e.data "type" = some 1 →
      (applyEvents ContextManager.empty es).activity.currentZone = none ∧
      (applyEvents ContextManager.empty es).activity.isStationary = false ∧
      (applyEvents ContextManager.empty es).activity.stationarySince = none) := by
  induction es using List.reverseRecOn with
  | nil =>
    refine ⟨?_, ?_, ?_⟩
    · simp [applyEvents, ContextManager.empty, lastGeofence]
    · intro e he
      simp [lastGeofence, List.find?] at he
    · intro e he
      simp [lastGeofence, List.find?] at he
  | append_singleton es e ih =>
    have happ : applyEvents ContextManager.empty (es ++ [e])
        = ContextManager.updateFromEvent (applyEvents ContextManager.empty es) e := by
      simp [applyEvents, List.foldl_append]
    by_cases hgeo : e.source = "geofence.triggered"
    · have hlast : lastGeofence (es ++ [e]) = some e := by
        simp [lastGeofence, List.reverse_append, List.find?, hgeo]
      by_cases htype : lookupKey e.data "type" = some 1
      · have hact := updateFromEvent_activity_geofence
          (applyEvents ContextManager.empty es) e hgeo
        rw [if_pos htype] at hact
        refine ⟨?_, ?_, ?_⟩
        · rw [happ, hact, hlast]
          constructor
          · intro hz
            exact ⟨e, rfl, htype, hz⟩
          · rintro ⟨e', he', _, hz⟩
            have he2 := Option.some.inj he'
            subst he2
            exact hz
        · intro e' he' htype'
          rw [hlast] at he'
          have he2 := Option.some.inj he'
          subst he2
          rw [happ, hact]
          exact ⟨rfl, rfl, rfl⟩
        · intro e' he' htype'
          rw [hlast] at he'
          have he2 := Option.some.inj he'
          subst he2
          exact absurd htype htype'
      · have hact := updateFromEvent_activity_geofence
          (applyEvents ContextManager.empty es) e hgeo
        rw [if_neg htype] at hact
        refine ⟨?_, ?_, ?_⟩
        · rw [happ, hact, hlast]
          constructor
          · intro hz
            exact absurd rfl hz
          · rintro ⟨e', he', htype', _⟩
            have he2 := Option.some.inj he'
            subst he2
            exact absurd htype' htype
        · intro e' he' htype'
          rw [hlast] at he'
          have he2 := Option.some.inj he'
          subst he2
          exact absurd htype' htype
        · intro e' he' htype'
          rw [hlast] at he'
          have he2 := Option.some.inj he'
          subst he2
          rw [happ, hact]
          exact ⟨rfl, rfl, rfl⟩
    · have hlast : lastGeofence (es ++ [e]) = lastGeofence es := by
        have hfalse : (e.source == "geofence.triggered") = false := by
          simpa using hgeo
        simp [lastGeofence, List.reverse_append, List.find?, hfalse]
      have hact := updateFromEvent_activity_of_not_geofence
        (applyEvents ContextManager.empty es) e hgeo
      rw [happ]
      rw [hlast, hact]
      exact ih

/-- C5 witness: a two-event enter/exit sequence through the amended
invariant. -/
theorem C5_zone_iff_last_enter_witness :
    ((applyEvents ContextManager.empty [c5ev]).activity.currentZone ≠ none ↔
      ∃ e, lastGeofence [c5ev] = some e ∧ lookupKey e.data "type" = some 1 ∧
        zoneNameOf e ≠ none) ∧
    (applyEvents ContextManager.empty [c5ev]).activity.isStationary = true ∧
    (applyEvents ContextManager.empty [c5ev]).activity.stationarySince = some c5ev.firedAt := by
  refine ⟨(C5_zone_iff_last_enter [c5ev]).1, ?_, ?_⟩
  · exact ((C5_zone_iff_last_enter [c5ev]).2.1 c5ev (by decide) (by decide)).2.1
  · exact ((C5_zone_iff_last_enter [c5ev]).2.1 c5ev (by decide) (by decide)).2.2

/-! ### C2: judgment fail-open -/

/-- C2.  `JudgmentLayer.evaluate` never suppresses an event on a
triage-layer failure: a misconfigured model (empty provider or model
part), a thrown LLM invocation, empty output, or unparsable output all
yield `push = true` with a reason containing "fail open". -/
theorem C2_judgment_fail_open (llmModel : String) (budget : ℚ)
    (parse : String → Option ParsedTriage) (resp : LlmResponse) (nowIso : String)
    (e : DeviceEvent) (ctx : DeviceContext)
    (h : (⟨(splitChar '/' llmModel.data).headD []⟩ : String) = "" ∨
         joinSep "/" ((splitChar '/' llmModel.data).tail.map (fun l => (⟨l⟩ : String))) = "" ∨
         resp = .threw ∨
         (∃ ps, resp = .payloads ps ∧ extractText ps = "") ∨
         (∃ ps, resp = .payloads ps ∧ ¬ extractText ps = "" ∧
            parse (cleanFences (extractText ps)) = none)) :
    (JudgmentLayer.evaluate llmModel budget parse resp nowIso e ctx).push = true ∧
    containsStr (JudgmentLayer.evaluate llmModel budget parse resp nowIso e ctx).reason
      "fail open" = true := by
  unfold JudgmentLayer.evaluate
  dsimp only
  by_cases hpm : (⟨(splitChar '/' llmModel.data).headD []⟩ : String) = "" ∨
      joinSep "/" ((splitChar '/' llmModel.data).tail.map (fun l => (⟨l⟩ : String))) = ""
  · rw [if_pos hpm]
    exact ⟨rfl, by decide⟩
  · rw [if_neg hpm]
    rcases h with h | h | h | ⟨ps, hps, hempty⟩ | ⟨ps, hps, hne, hparse⟩
    · exact absurd (Or.inl h) hpm
    · exact absurd (Or.inr h) hpm
    · subst h
      dsimp only
      exact ⟨rfl, by decide⟩
    · subst hps
      dsimp only
      rw [if_pos hempty]
      exact ⟨rfl, by decide⟩
    · subst hps
      dsimp only
      rw [if_neg hne, hparse]
      exact ⟨rfl, by decide⟩

/-- C2 witness: a model string with no slash (empty model part). -/
theorem C2_judgment_fail_open_witness :
    (JudgmentLayer.evaluate "openai" 10 (fun _ => none) (.payloads []) "t"
        { subscriptionId := "s", source := "u", data := [], metadata := none, firedAt := 0 }
        ContextManager.empty).push = true ∧
    containsStr (JudgmentLayer.evaluate "openai" 10 (fun _ => none) (.payloads []) "t"
        { subscriptionId := "s", source := "u", data := [], metadata := none, firedAt := 0 }
        ContextManager.empty).reason "fail open" = true :=
  C2_judgment_fail_open "openai" 10 (fun _ => none) (.payloads []) "t"
    { subscriptionId := "s", source := "u", data := [], metadata := none, firedAt := 0 }
    ContextManager.empty (Or.inr (Or.inl (by decide)))

/-! ### C6: the battery-low "level changed" branch is dead through the
pipeline -/

/-- C6.  Because `processEvent` updates the context from the event before
`rules.evaluate` runs, rule 5 compares the event's `level` with the value
it itself just stored: a `default.battery-low` event from
`device.battery` with a present `level`, no `_debugFired` flag and no
active dedup cooldown always drops with "level unchanged"; the
"level changed" push branch is unreachable through the pipeline. -/
theorem C6_battery_low_drop (lf : List (String × ℚ)) (budget : ℚ)
    (localHour : ℚ → ℤ) (e : DeviceEvent) (ctx : DeviceContext) (v : ℚ)
    (hsub : e.subscriptionId = "default.battery-low")
    (hsrc : e.source = "device.battery")
    (hlevel : lookupKey e.data "level" = some v)
    (hdebug : ¬ lookupKey e.data "_debugFired" = some 1)
    (hdedup : ∀ t, lookupKey lf "default.battery-low" = some t →
      t = 0 ∨ 3600 ≤ e.firedAt - t) :
    processDecision lf budget localHour e ctx =
      { action := .drop, reason := "battery-low: level unchanged since last push" } := by
  have hb := updateFromEvent_battery ctx e hsrc
  rw [processDecision, RulesEngine.evaluate]
  rw [if_neg (by simpa using hdebug)]
  have hcool : (DEDUP_COOLDOWN e.subscriptionId).getD DEFAULT_COOLDOWN = 3600 := by
    rw [hsub]
    decide
  have hpost : RulesEngine.evalPostDedup budget localHour e
      (ContextManager.updateFromEvent ctx e) =
      { action := .drop, reason := "battery-low: level unchanged since last push" } := by
    rw [RulesEngine.evalPostDedup]
    rw [if_neg (by rw [hsub]; decide), if_neg (by rw [hsrc]; decide),
      if_pos (by rw [hsub]; decide)]
    rw [hb]
    simp only [hlevel, Option.map_some', Option.getD_some]
    rw [if_pos ?hlt]
    case hlt =>
      rw [jsAbs_eq, jsSub_eq, sub_self, abs_zero, Rat.mkRat_eq_divInt, Rat.divInt_eq_div]
      norm_num
  cases hlf : lookupKey lf e.subscriptionId with
  | none =>
    dsimp only
    exact hpost
  | some t =>
    dsimp only
    rw [if_neg ?hno]
    case hno =>
      rcases hdedup t (by rwa [hsub] at hlf) with ht0 | hge
      · rintro ⟨hne, _⟩
        exact hne ht0
      · rintro ⟨_, hlt⟩
        rw [hcool, jsSub_eq] at hlt
        exact absurd hge (not_le.mpr hlt)
    exact hpost

/-! ### Substring lemmas for C3 -/

theorem startsWithL_self_append (t r : List Char) : startsWithL t (t ++ r) = true := by
  induction t with
  | nil => rfl
  | cons a t ih => simp [startsWithL, ih]

theorem startsWithL_append_right {t x : List Char} (y : List Char)
    (h : startsWithL t x = true) : startsWithL t (x ++ y) = true := by
  induction t generalizing x with
  | nil => rfl
  | cons a t ih =>
    cases x with
    | nil => cases h
    | cons b x =>
      rw [startsWithL, Bool.and_eq_true] at h
      rcases h with ⟨hab, hr⟩
      rw [List.cons_append, startsWithL, Bool.and_eq_true]
      exact ⟨hab, ih hr⟩

theorem startsWithL_of_append_long {t x y : List Char}
    (h : startsWithL t (x ++ y) = true) (hlen : t.length ≤ x.length) :
    startsWithL t x = true := by
  induction t generalizing x with
  | nil => rfl
  | cons a t ih =>
    cases x with
    | nil => simp at hlen
    | cons b x =>
      rw [List.cons_append, startsWithL, Bool.and_eq_true] at h
      rcases h with ⟨hab, hr⟩
      rw [startsWithL, Bool.and_eq_true]
      exact ⟨hab, ih hr (by simpa using hlen)⟩

theorem startsWithL_drop_of_append {t x y : List Char}
    (h : startsWithL t (x ++ y) = true) (hlen : x.length < t.length) :
    startsWithL (t.drop x.length) y = true := by
  induction x generalizing t with
  | nil => simpa using h
  | cons b x ih =>
    cases t with
    | nil => simp at hlen
    | cons a t =>
      rw [List.cons_append, startsWithL, Bool.and_eq_true] at h
      simpa using ih h.2 (by simpa using hlen)

theorem startsWithL_head {t0 : Char} {t : List Char} {c : Char} {z : List Char}
    (h : startsWithL (t0 :: t) (c :: z) = true) : t0 = c := by
  rw [startsWithL, Bool.and_eq_true] at h
  exact beq_iff_eq.mp h.1

theorem occursIn_of_startsWithL {t l : List Char} (h : startsWithL t l = true) :
    occursIn t l = true := by
  cases l <;> · rw [occursIn]; simp [h]

theorem occursIn_iff_drop (t l : List Char) :
    occursIn t l = true ↔ ∃ n, startsWithL t (l.drop n) = true := by
  induction l with
  | nil =>
    rw [occursIn]
    simp
  | cons c l ih =>
    rw [occursIn]
    simp only [Bool.or_eq_true]
    constructor
    · rintro (h | h)
      · exact ⟨0, h⟩
      · obtain ⟨n, hn⟩ := ih.mp h
        exact ⟨n + 1, hn⟩
    · rintro ⟨n, hn⟩
      cases n with
      | zero => exact Or.inl hn
      | succ n => exact Or.inr (ih.mpr ⟨n, by simpa using hn⟩)

theorem occursIn_append_of_right {t b : List Char} (a : List Char)
    (h : occursIn t b = true) : occursIn t (a ++ b) = true := by
  induction a with
  | nil => simpa using h
  | cons x a ih =>
    rw [List.cons_append, occursIn]
    simp [ih]

theorem occursIn_append_of_left {t a : List Char} (b : List Char)
    (h : occursIn t a = true) : occursIn t (a ++ b) = true := by
  induction a with
  | nil =>
    cases t with
    | nil => exact occursIn_of_startsWithL (by cases b <;> rfl)
    | cons c t' => simp [occursIn, startsWithL] at h
  | cons x a ih =>
    rw [occursIn, Bool.or_eq_true] at h
    rcases h with h | h
    · rw [List.cons_append, occursIn, Bool.or_eq_true]
      exact Or.inl (by rw [← List.cons_append]; exact startsWithL_append_right b h)
    · rw [List.cons_append, occursIn, Bool.or_eq_true]
      exact Or.inr (ih h)

/-- The sandwich lemma: a nonempty needle whose characters all satisfy
`P` cannot occur across a nonempty middle segment none of whose
characters satisfy `P`; an occurrence in `A ++ M ++ B` lies in `A` or in
`B`. -/
theorem occursIn_sandwich {t A M B : List Char} {P : Char → Bool}
    (hP : ∀ c ∈ t, P c = true) (hM : ∀ c ∈ M, P c = false)
    (ht : t ≠ []) (hMne : M ≠ [])
    (h : occursIn t (A ++ (M ++ B)) = true) :
    occursIn t A = true ∨ occursIn t B = true := by
  obtain ⟨n, hn⟩ := (occursIn_iff_drop _ _).mp h
  rw [List.drop_append_eq_append_drop] at hn
  have hld : (A.drop n).length = A.length - n := List.length_drop ..
  by_cases hnA : n < A.length
  · -- the occurrence starts inside A
    have hASne : A.drop n ≠ [] := by
      intro hempty
      rw [List.drop_eq_nil_iff] at hempty
      omega
    by_cases hlen : t.length ≤ (A.drop n).length
    · left
      rw [occursIn_iff_drop]
      exact ⟨n, startsWithL_of_append_long hn hlen⟩
    · -- the occurrence would cross into M
      exfalso
      have hdrop := startsWithL_drop_of_append hn (by omega)
      have hMn : (M ++ B).drop (n - A.length) = M ++ B := by
        rw [Nat.sub_eq_zero_of_le (le_of_lt hnA)]
        rfl
      rw [hMn] at hdrop
      obtain ⟨c, M'⟩ := List.exists_cons_of_ne_nil hMne
      obtain ⟨M'', rfl⟩ := M'
      cases htd : t.drop (A.drop n).length with
      | nil =>
        have : t.length ≤ (A.drop n).length := by
          have := congrArg List.length htd
          simp at this
          omega
        omega
      | cons t0 t' =>
        rw [htd, List.cons_append] at hdrop
        have hhead := startsWithL_head hdrop
        have ht0 : t0 ∈ t := by
          have : t0 ∈ t.drop (A.drop n).length := by
            rw [htd]
            exact List.mem_cons_self _ _
          exact List.mem_of_mem_drop this
        have h1 := hP t0 ht0
        have h2 := hM c (List.mem_cons_self _ _)
        rw [hhead] at h1
        rw [h1] at h2
        cases h2
  · -- the occurrence starts at or after M's zone
    have hA : A.drop n = [] := by
      rw [List.drop_eq_nil_iff]
      omega
    rw [hA, List.nil_append, List.drop_append_eq_append_drop] at hn
    by_cases hnM : n - A.length < M.length
    · -- it would start inside M: head clash
      exfalso
      have hMdne : M.drop (n - A.length) ≠ [] := by
        intro hempty
        rw [List.drop_eq_nil_iff] at hempty
        omega
      obtain ⟨c, Md⟩ := List.exists_cons_of_ne_nil hMdne
      obtain ⟨Md', hMd⟩ := Md
      rw [hMd, List.cons_append] at hn
      cases t with
      | nil => exact ht rfl
      | cons t0 t' =>
        have hhead := startsWithL_head hn
        have h1 := hP t0 (List.mem_cons_self _ _)
        have h2 : c ∈ M := by
          have : c ∈ M.drop (n - A.length) := by
            rw [hMd]
            exact List.mem_cons_self _ _
          exact List.mem_of_mem_drop this
        have h3 := hM c h2
        rw [hhead] at h1
        rw [h1] at h3
        cases h3
    · -- it starts inside B
      have hMdrop : M.drop (n - A.length) = [] := by
        rw [List.drop_eq_nil_iff]
        omega
      rw [hMdrop, List.nil_append] at hn
      right
      rw [occursIn_iff_drop]
      exact ⟨n - A.length - M.length, hn⟩

/-! ### Character sets of rendered numbers -/

/-- The characters a rendered JS number can contain. -/
def isNumChar (c : Char) : Bool := c.isDigit || c == '-' || c == '.' || c == '/'

theorem digitChar_isDigit (d : ℕ) (h : d < 10) : (Char.ofNat (48 + d)).isDigit = true := by
  interval_cases d <;> decide

theorem natStrAux_chars (fuel n : ℕ) : ∀ c ∈ natStrAux fuel n, c.isDigit = true := by
  induction fuel generalizing n with
  | zero =>
    intro c hc
    cases hc
  | succ fuel ih =>
    intro c hc
    rw [natStrAux] at hc
    split at hc
    · cases hc
    · rcases List.mem_append.mp hc with h1 | h1
      · exact ih _ c h1
      · rcases List.mem_singleton.mp h1 with rfl
        exact digitChar_isDigit _ (Nat.mod_lt _ (by omega))

theorem natStr_chars (n : ℕ) : ∀ c ∈ (natStr n).data, c.isDigit = true := by
  intro c hc
  rw [natStr] at hc
  split at hc
  · rcases List.mem_singleton.mp hc with rfl
    decide
  · exact natStrAux_chars _ _ c hc

theorem natStr_chars_num (n : ℕ) : ∀ c ∈ (natStr n).data, isNumChar c = true := by
  intro c hc
  rw [isNumChar, natStr_chars n c hc]
  rfl

theorem intStr_chars (i : ℤ) : ∀ c ∈ (intStr i).data, isNumChar c = true := by
  intro c hc
  rw [intStr] at hc
  split at hc
  · rw [String.data_append] at hc
    rcases List.mem_append.mp hc with h1 | h1
    · rcases List.mem_singleton.mp h1 with rfl
      decide
    · exact natStr_chars_num _ c h1
  · exact natStr_chars_num _ c hc

theorem padZeros_chars (k : ℕ) (s : String)
    (hs : ∀ c ∈ s.data, isNumChar c = true) :
    ∀ c ∈ (padZeros k s).data, isNumChar c = true := by
  intro c hc
  rw [padZeros] at hc
  rcases List.mem_append.mp hc with h1 | h1
  · rcases List.eq_of_mem_replicate h1 with rfl
    decide
  · exact hs c h1

theorem ratStr_chars (q : ℚ) : ∀ c ∈ (ratStr q).data, isNumChar c = true := by
  intro c hc
  simp only [ratStr] at hc
  split at hc
  · exact intStr_chars _ c hc
  · repeat' split at hc
    all_goals
      first
      | -- decimal branch, either sign
        (simp only [String.data_append] at hc
         rcases List.mem_append.mp hc with hc | hc
         · rcases List.mem_append.mp hc with hc | hc
           · rcases List.mem_append.mp hc with hc | hc
             · first
               | (rcases List.mem_singleton.mp hc with rfl; decide)
               | exact absurd hc (by simp)
             · exact natStr_chars_num _ c hc
           · rcases List.mem_singleton.mp hc with rfl
             decide
         · exact padZeros_chars _ _ (natStr_chars_num _) c hc)
      | -- fraction branch
        (simp only [String.data_append] at hc
         rcases List.mem_append.mp hc with hc | hc
         · rcases List.mem_append.mp hc with hc | hc
           · exact intStr_chars _ c hc
           · rcases List.mem_singleton.mp hc with rfl
             decide
         · exact natStr_chars_num _ c hc)

/-- A character of a rendered number is never one of the letters of
"dedup". -/
theorem numChar_not_dedup_letter (c : Char) (h : isNumChar c = true) :
    (c == 'd' || c == 'e' || c == 'u' || c == 'p') = false := by
  rw [isNumChar] at h
  simp only [Bool.or_eq_true, beq_iff_eq] at h
  rcases h with ((hd | rfl) | rfl) | rfl
  · have h1 : c ≠ 'd' := fun hc => by rw [hc] at hd; exact absurd hd (by decide)
    have h2 : c ≠ 'e' := fun hc => by rw [hc] at hd; exact absurd hd (by decide)
    have h3 : c ≠ 'u' := fun hc => by rw [hc] at hd; exact absurd hd (by decide)
    have h4 : c ≠ 'p' := fun hc => by rw [hc] at hd; exact absurd hd (by decide)
    simp [h1, h2, h3, h4]
  · decide
  · decide
  · decide

/-! ### C3: dedup window -/

/-- "the decision is a drop whose reason mentions dedup". -/
def isDedupDrop (d : FilterDecision) : Bool :=
  (d.action == .drop) && containsStr d.reason "dedup"

theorem containsStr_dedupDrop (e : DeviceEvent) (t c : ℚ) :
    containsStr (RulesEngine.dedupDrop e t c).reason "dedup" = true := by
  rw [RulesEngine.dedupDrop, containsStr]
  simp only [String.data_append]
  exact occursIn_of_startsWithL
    (startsWithL_append_right _
      (startsWithL_append_right _
        (startsWithL_append_right _
          (startsWithL_append_right _
            (startsWithL_append_right _
              (startsWithL_append_right _ (by decide)))))))

/-- Rules 3-8 never produce a drop whose reason mentions "dedup"; in
particular the budget drop's reason, whose interpolated numerals contain
no letters, cannot contain it. -/
theorem not_dedupDrop_evalPostDedup (budget : ℚ) (localHour : ℚ → ℤ)
    (e : DeviceEvent) (ctx : DeviceContext) :
    isDedupDrop (RulesEngine.evalPostDedup budget localHour e ctx) = false := by
  rw [RulesEngine.evalPostDedup]
  dsimp only
  split
  · rfl
  split
  · rfl
  split
  · split
    · split
      · rw [isDedupDrop]
        simp only [Bool.and_eq_true]
        rw [show ((FilterAction.drop == FilterAction.drop) : Bool) = true from rfl,
          Bool.true_and]
        decide
      · rfl
    · rfl
  split
  · split
    · rfl
    · rfl
  split
  · -- budget drop: the sandwich argument
    rw [isDedupDrop]
    rw [show ((FilterAction.drop == FilterAction.drop) : Bool) = true from rfl,
      Bool.true_and]
    rw [containsStr]
    simp only [String.data_append]
    by_contra hocc
    rw [Bool.not_eq_false] at hocc
    have hocc2 : occursIn "dedup".data
        ("push budget exhausted (".data ++
          (((ratStr ctx.meta.pushesToday).data ++ ("/".data ++ (ratStr budget).data))
            ++ " today)".data)) = true := by
      simpa only [List.append_assoc] using hocc
    have hsplit := occursIn_sandwich
      (P := fun ch => ch == 'd' || ch == 'e' || ch == 'u' || ch == 'p')
      (t := "dedup".data)
      (M := (ratStr ctx.meta.pushesToday).data ++ ("/".data ++ (ratStr budget).data))
      (A := "push budget exhausted (".data) (B := " today)".data)
      (by decide)
      ?hM (by decide) ?hMne hocc2
    case hM =>
      intro ch hch
      apply numChar_not_dedup_letter
      rcases List.mem_append.mp hch with hch | hch
      · exact ratStr_chars _ ch hch
      · rcases List.mem_append.mp hch with hch | hch
        · rcases List.mem_singleton.mp hch with rfl
          decide
        · exact ratStr_chars _ ch hch
    case hMne =>
      intro hemp
      have hsl : '/' ∈ (ratStr ctx.meta.pushesToday).data
          ++ ("/".data ++ (ratStr budget).data) :=
        List.mem_append.mpr (Or.inr (List.mem_append.mpr (Or.inl (by decide))))
      rw [hemp] at hsl
      cases hsl
    rcases hsplit with hA | hB
    · exact absurd hA (by decide)
    · exact absurd hB (by decide)
  · rfl

/-- A debug-flagged battery event inside the cooldown window. -/
def c3ev : DeviceEvent :=
  { subscriptionId := "default.battery-low", source := "device.battery",
    data := [("level", mkRat 15 100), ("_debugFired", 1)], metadata := none,
    firedAt := 1740000100 }

/-- C3 counterexample.  `c3ev`'s subscription has a recorded `lastFired`
entry and `firedAt − lastFired < cooldown`, yet `evaluate` does not
return a dedup drop — the debug rule fires first and pushes. -/
theorem C3_counterexample :
    lookupKey [("default.battery-low", (1740000000:ℚ))] c3ev.subscriptionId
      = some 1740000000 ∧
    (DEDUP_COOLDOWN c3ev.subscriptionId).getD DEFAULT_COOLDOWN = 3600 ∧
    c3ev.firedAt - 1740000000 < 3600 ∧
    isDedupDrop (RulesEngine.evaluate [("default.battery-low", 1740000000)] 10
      (fun _ => 0) c3ev ContextManager.empty) = false ∧
    RulesEngine.evaluate [("default.battery-low", 1740000000)] 10
      (fun _ => 0) c3ev ContextManager.empty
      = { action := .push, reason := "debug event — always push" } := by
  refine ⟨by decide, by decide, ?_, by decide, by decide⟩
  show (1740000100:ℚ) - 1740000000 < 3600
  norm_num

/-- C3 amended.  For every event without the `_debugFired == 1` flag
whose subscription has a recorded nonzero `lastFired` entry, `evaluate`
returns a drop whose reason contains "dedup" exactly when
`firedAt − lastFired` is strictly below the per-subscription cooldown
(table value, else 1800 s); at or above the cooldown — in particular at
exact equality — the event falls through to the later rules. -/
theorem C3_dedup_strict (lf : List (String × ℚ)) (budget : ℚ) (localHour : ℚ → ℤ)
    (e : DeviceEvent) (ctx : DeviceContext) (t : ℚ)
    (hlf : lookupKey lf e.subscriptionId = some t)
    (ht : ¬ t = 0)
    (hdebug : ¬ lookupKey e.data "_debugFired" = some 1) :
    (isDedupDrop (RulesEngine.evaluate lf budget localHour e ctx) = true ↔
      e.firedAt - t < (DEDUP_COOLDOWN e.subscriptionId).getD DEFAULT_COOLDOWN) ∧
    ((DEDUP_COOLDOWN e.subscriptionId).getD DEFAULT_COOLDOWN ≤ e.firedAt - t →
      RulesEngine.evaluate lf budget localHour e ctx
        = RulesEngine.evalPostDedup budget localHour e ctx) := by
  rw [RulesEngine.evaluate]
  rw [if_neg (by simpa using hdebug), hlf]
  dsimp only
  by_cases hcd : e.firedAt - t < (DEDUP_COOLDOWN e.subscriptionId).getD DEFAULT_COOLDOWN
  · rw [if_pos ⟨ht, by rw [jsSub_eq]; exact hcd⟩]
    refine ⟨iff_of_true ?_ hcd, fun hge => absurd hcd (not_lt.mpr hge)⟩
    rw [isDedupDrop, Bool.and_eq_true]
    exact ⟨rfl, containsStr_dedupDrop e t _⟩
  · rw [if_neg (fun hand => hcd (by rw [← jsSub_eq]; exact hand.2))]
    exact ⟨iff_of_false (by rw [not_dedupDrop_evalPostDedup]; simp) hcd, fun _ => rfl⟩

/-- A non-debug event of an unknown subscription, for the C3 witness. -/
def c3wEv : DeviceEvent :=
  { subscriptionId := "custom.x", source := "custom.src", data := [],
    metadata := none, firedAt := 1740000100 }

/-- C3 witness: the amended dedup criterion at a concrete recorded
entry. -/
theorem C3_dedup_strict_witness :
    (isDedupDrop (RulesEngine.evaluate [("custom.x", 1740000000)] 10 (fun _ => 0)
        c3wEv ContextManager.empty) = true ↔
      c3wEv.firedAt - 1740000000
        < (DEDUP_COOLDOWN c3wEv.subscriptionId).getD DEFAULT_COOLDOWN) ∧
    ((DEDUP_COOLDOWN c3wEv.subscriptionId).getD DEFAULT_COOLDOWN
        ≤ c3wEv.firedAt - 1740000000 →
      RulesEngine.evaluate [("custom.x", 1740000000)] 10 (fun _ => 0)
          c3wEv ContextManager.empty
        = RulesEngine.evalPostDedup 10 (fun _ => 0) c3wEv ContextManager.empty) :=
  C3_dedup_strict [("custom.x", 1740000000)] 10 (fun _ => 0)
    c3wEv ContextManager.empty 1740000000
    (by decide) (by decide) (by decide)

/-! ### C7: prompt privacy -/

/-- `strSub m l`: `m` appears as a contiguous segment of `l`. -/
def strSub (m l : String) : Prop := ∃ u v : List Char, l.data = u ++ (m.data ++ v)

theorem strSub_refl (s : String) : strSub s s := ⟨[], [], by simp⟩

theorem strSub_append_left {m b : String} (a : String) (h : strSub m b) :
    strSub m (a ++ b) := by
  obtain ⟨u, v, hv⟩ := h
  exact ⟨a.data ++ u, v, by rw [String.data_append, hv, List.append_assoc]⟩

theorem strSub_append_right {m a : String} (b : String) (h : strSub m a) :
    strSub m (a ++ b) := by
  obtain ⟨u, v, hv⟩ := h
  exact ⟨u, v ++ b.data, by rw [String.data_append, hv]; simp [List.append_assoc]⟩

theorem strSub_trans {a b c : String} (h1 : strSub a b) (h2 : strSub b c) : strSub a c := by
  obtain ⟨u1, v1, hv1⟩ := h1
  obtain ⟨u2, v2, hv2⟩ := h2
  exact ⟨u2 ++ u1, v1 ++ v2, by rw [hv2, hv1]; simp [List.append_assoc]⟩

theorem startsWithL_refl (t : List Char) : startsWithL t t = true := by
  induction t with
  | nil => rfl
  | cons a t ih => simp [startsWithL, ih]

theorem occursIn_of_strSub {m l : String} (h : strSub m l) :
    occursIn m.data l.data = true := by
  obtain ⟨u, v, hv⟩ := h
  rw [hv]
  exact occursIn_append_of_right u
    (occursIn_append_of_left v (occursIn_of_startsWithL (startsWithL_refl _)))

theorem joinSep_cons₂ (sep : String) (x y : String) (rest : List String) :
    joinSep sep (x :: y :: rest) = x ++ sep ++ joinSep sep (y :: rest) := rfl

/-- The label string literal is a segment of the sanitized location
object. -/
theorem strSub_label_sanitizedLocation (l : LocationState) :
    strSub (escapeJson (l.label.getD "Unknown")) (sanitizedLocationJson l) := by
  rw [sanitizedLocationJson, jsonObj, List.map_cons, List.map_cons, List.map_nil,
    joinSep_cons₂, jsonStrLit]
  exact strSub_append_right _ (strSub_append_left _ (strSub_append_right _
    (strSub_append_right _ (strSub_append_left _ (strSub_append_right _
      (strSub_append_left _ (strSub_refl _)))))))

/-- The sanitized location object is a segment of the sanitized context
JSON. -/
theorem strSub_location_context (ctx : DeviceContext) (loc : LocationState)
    (h : ctx.device.location = some loc) :
    strSub (sanitizedLocationJson loc) (sanitizedContextJson ctx) := by
  rw [sanitizedContextJson, h,
    show jsonOpt sanitizedLocationJson (some loc) = sanitizedLocationJson loc from rfl]
  rw [jsonObj, List.map_cons, List.map_cons, List.map_cons, List.map_nil, joinSep_cons₂]
  rw [jsonObj, List.map_cons, List.map_cons, List.map_cons, List.map_nil,
    joinSep_cons₂, joinSep_cons₂]
  exact strSub_append_right _ (strSub_append_left _ (strSub_append_right _
    (strSub_append_right _ (strSub_append_left _ (strSub_append_right _
      (strSub_append_left _ (strSub_append_left _ (strSub_append_right _
        (strSub_append_right _ (strSub_append_left _ (strSub_refl _)))))))))))

/-- A context with fixed location coordinates, for the C7
counterexample. -/
def c7ctx : DeviceContext :=
  { ContextManager.empty with device :=
      { battery := none
        location := some ⟨3, 11, 0, some "Home", 0⟩
        health := none } }

/-- An event with no data, for C7. -/
def c7ev : DeviceEvent :=
  { subscriptionId := "custom.ping", source := "custom.src", data := [],
    metadata := none, firedAt := 0 }

set_option maxRecDepth 8000 in
/-- C7 counterexample.  With latitude 3 and three pushes used today, the
prompt does contain the literal latitude characters ("3" appears in
"Pushes today: 3 of ~10 budget"), so the non-containment part of the
claim fails as stated. -/
theorem C7_counterexample :
    c7ctx.device.location.map (·.latitude) = some 3 ∧
    ratStr 3 = "3" ∧
    occursIn (ratStr 3).data
      (buildPrompt c7ev c7ctx 3 10 "2026-02-19T12:00:00.000Z").data = true := by
  refine ⟨by decide, by decide, by decide⟩

/-- C7 amended.  The prompt built for the judgment layer does not depend
on latitude, longitude or horizontal accuracy (two contexts differing
only there produce identical prompts: the sanitized context keeps only
`{label, updatedAt}`), and the JSON-escaped location label (or
"Unknown" when null) appears in the prompt. -/
theorem C7_prompt_privacy :
    (∀ (e : DeviceEvent) (ctx : DeviceContext) (loc1 loc2 : LocationState)
        (pushes budget : ℚ) (nowIso : String),
      loc1.label = loc2.label → loc1.updatedAt = loc2.updatedAt →
      buildPrompt e { ctx with device := { ctx.device with location := some loc1 } }
          pushes budget nowIso
        = buildPrompt e { ctx with device := { ctx.device with location := some loc2 } }
            pushes budget nowIso) ∧
    (∀ (e : DeviceEvent) (ctx : DeviceContext) (loc : LocationState)
        (pushes budget : ℚ) (nowIso : String),
      ctx.device.location = some loc →
      occursIn (escapeJson (loc.label.getD "Unknown")).data
        (buildPrompt e ctx pushes budget nowIso).data = true) := by
  constructor
  · intro e ctx loc1 loc2 pushes budget nowIso h1 h2
    simp only [buildPrompt, sanitizedContextJson, sanitizedLocationJson, jsonOpt]
    rw [h1, h2]
  · intro e ctx loc pushes budget nowIso h
    apply occursIn_of_strSub
    refine strSub_trans (strSub_trans (strSub_label_sanitizedLocation loc)
      (strSub_location_context ctx loc h)) ?_
    -- the context JSON sits inside the sixth prompt line
    rw [buildPrompt]
    rw [joinSep_cons₂]
    refine strSub_append_left _ ?_
    rw [joinSep_cons₂]
    refine strSub_append_left _ ?_
    rw [joinSep_cons₂]
    refine strSub_append_left _ ?_
    rw [joinSep_cons₂]
    refine strSub_append_left _ ?_
    rw [joinSep_cons₂]
    refine strSub_append_left _ ?_
    rw [joinSep_cons₂]
    refine strSub_append_right _ ?_
    refine strSub_append_right _ ?_
    exact strSub_append_left _ (strSub_refl _)

/-- C7 witness: the escaped label "Home" occurs in a concrete prompt. -/
theorem C7_prompt_privacy_witness :
    occursIn (escapeJson ((some "Home").getD "Unknown")).data
      (buildPrompt c7ev c7ctx 3 10 "2026-02-19T12:00:00.000Z").data = true :=
  C7_prompt_privacy.2 c7ev c7ctx ⟨3, 11, 0, some "Home", 0⟩ 3 10
    "2026-02-19T12:00:00.000Z" rfl

/-! ### C8: cooldown write precedes delivery -/

/-- The delivery effects start with the `deliver` invocation and append
at most an error log. -/
theorem deliveryEffects_shape (id message : String) (outcome : DeliveryOutcome) :
    deliveryEffects id message outcome = [.deliver id message] ∨
    ∃ s, deliveryEffects id message outcome = [.deliver id message, .logError s] := by
  cases outcome with
  | exited code stderr =>
    simp only [deliveryEffects]
    by_cases hc : code ≠ 0
    · exact Or.inr ⟨_, by rw [if_pos hc]⟩
    · exact Or.inl (by rw [if_neg hc])
  | threw m => exact Or.inr ⟨_, rfl⟩

/-- One loop iteration either skips (no effects, patterns unchanged) or
emits `logInfo`, then the `writePatterns` carrying the new cooldown, then
the delivery (and possibly an error log). -/
theorem step_shape (ctx : DeviceContext) (now : ℚ) (outcome : String → DeliveryOutcome)
    (patterns : Patterns) (t : String × (DeviceContext → Patterns → Option TriggerResult)) :
    (ProactiveEngine.step ctx now outcome patterns t
        = (([] : List Effect), patterns)) ∨
    ∃ (m1 m2 : String) (errs : List Effect) (p' : Patterns),
      ProactiveEngine.step ctx now outcome patterns t
          = (.logInfo m1 :: .writePatterns p' :: .deliver t.1 m2 :: errs, p') ∧
      (errs = [] ∨ ∃ s, errs = [.logError s]) ∧
      lookupKey p'.triggerCooldowns t.1 = some now := by
  rw [ProactiveEngine.step]
  dsimp only
  split
  · exact Or.inl rfl
  · split
    · exact Or.inl rfl
    · next result heq =>
      right
      rcases deliveryEffects_shape t.1
          ("[BetterClaw proactive insight — combined signal analysis]\n\n" ++ result.message)
          (outcome t.1) with hde | ⟨es, hde⟩
      · refine ⟨"betterclaw: proactive trigger fired: " ++ t.1,
          "[BetterClaw proactive insight — combined signal analysis]\n\n" ++ result.message, [],
          { patterns with triggerCooldowns := setKey patterns.triggerCooldowns t.1 now },
          ?_, Or.inl rfl, lookupKey_setKey_self _ _ _⟩
        rw [hde]
        rfl
      · refine ⟨"betterclaw: proactive trigger fired: " ++ t.1,
          "[BetterClaw proactive insight — combined signal analysis]\n\n" ++ result.message,
          [.logError es],
          { patterns with triggerCooldowns := setKey patterns.triggerCooldowns t.1 now },
          ?_, Or.inr ⟨es, rfl⟩, lookupKey_setKey_self _ _ _⟩
        rw [hde]
        rfl

/-- C8.  In every `checkAll` execution, each delivery invocation is
strictly preceded in the effect trace by a `writePatterns` whose
document already records the firing trigger's cooldown at `now`; this
holds for every delivery outcome, so a failing or timing-out delivery
can neither precede nor prevent the cooldown write. -/
theorem C8_write_before_deliver
    (table : List (String × (DeviceContext → Patterns → Option TriggerResult)))
    (ctx : DeviceContext) (patterns : Patterns) (now : ℚ)
    (outcome : String → DeliveryOutcome) (k : ℕ) (id msg : String)
    (hk : (ProactiveEngine.checkAll table ctx patterns now outcome).1[k]?
      = some (.deliver id msg)) :
    ∃ (j : ℕ) (p' : Patterns), j < k ∧
      (ProactiveEngine.checkAll table ctx patterns now outcome).1[j]?
        = some (.writePatterns p') ∧
      lookupKey p'.triggerCooldowns id = some now := by
  induction table generalizing patterns k with
  | nil => simp [ProactiveEngine.checkAll] at hk
  | cons t rest ih =>
    rw [ProactiveEngine.checkAll] at hk ⊢
    dsimp only at hk ⊢
    rcases step_shape ctx now outcome patterns t
      with hskip | ⟨m1, m2, errs, p2, heff, herrs, hcd⟩
    · rw [hskip] at hk ⊢
      dsimp only at hk ⊢
      rw [List.nil_append] at hk ⊢
      exact ih _ _ hk
    · rw [heff] at hk ⊢
      dsimp only at hk ⊢
      rw [List.cons_append, List.cons_append, List.cons_append] at hk ⊢
      match k, hk with
      | 0, hk => simp at hk
      | 1, hk => simp at hk
      | 2, hk =>
        simp only [List.getElem?_cons_succ, List.getElem?_cons_zero, Option.some.injEq,
          Effect.deliver.injEq] at hk
        refine ⟨1, p2, by omega, rfl, ?_⟩
        rw [hk.1] at hcd
        exact hcd
      | (n+3), hk =>
        simp only [List.getElem?_cons_succ] at hk
        rcases herrs with rfl | ⟨es, rfl⟩
        · rw [List.nil_append] at hk
          obtain ⟨j, p', hjk, hj, hcdj⟩ := ih _ _ hk
          refine ⟨j + 3, p', by omega, ?_, hcdj⟩
          simp only [List.getElem?_cons_succ, List.nil_append]
          exact hj
        · rw [List.cons_append, List.nil_append] at hk
          match n, hk with
          | 0, hk => simp at hk
          | (m+1), hk =>
            rw [List.getElem?_cons_succ] at hk
            obtain ⟨j, p', hjk, hj, hcdj⟩ := ih _ _ hk
            refine ⟨j + 4, p', by omega, ?_, hcdj⟩
            simp only [List.getElem?_cons_succ, List.cons_append, List.nil_append]
            exact hj

/-- C8 witness: a single always-firing trigger on an empty cooldown
table. -/
theorem C8_write_before_deliver_witness :
    ∃ (j : ℕ) (p' : Patterns), j < 2 ∧
      (ProactiveEngine.checkAll
          [("t1", fun _ _ => some { id := "t1", message := "hi", priority := .normal })]
          ContextManager.empty emptyPatterns 1000000000
          (fun _ => .exited 0 "")).1[j]?
        = some (.writePatterns p') ∧
      lookupKey p'.triggerCooldowns "t1" = some 1000000000 :=
  C8_write_before_deliver
    [("t1", fun _ _ => some { id := "t1", message := "hi", priority := .normal })]
    ContextManager.empty emptyPatterns 1000000000 (fun _ => .exited 0 "") 2 "t1"
    ("[BetterClaw proactive insight — combined signal analysis]\n\nhi")
    (by decide)

/-- C6 witness: a concrete battery-low event through the pipeline
prefix. -/
theorem C6_battery_low_drop_witness :
    processDecision [] 10 (fun _ => 0)
      { subscriptionId := "default.battery-low", source := "device.battery",
        data := [("level", mkRat 15 100)], metadata := none, firedAt := 1740000000 }
      ContextManager.empty =
        { action := .drop, reason := "battery-low: level unchanged since last push" } :=
  C6_battery_low_drop [] 10 (fun _ => 0) _ ContextManager.empty (mkRat 15 100)
    rfl rfl (by decide) (by decide) (by decide)

end BetterClaw
